import Mathlib

/-!
OlonConfig: persisted configuration record with CRC16 integrity check

Shallow embedding of `src/src/OlonConfig.h` (`Olon::Config<T>`).

* A record of type `T` is modelled by its `sizeof(T)` bytes (`List Nat`, each byte below 256).
* The record type itself is given by the bytes of a default-constructed `T`.
* The `Preferences` class of the platform is not part of the repository; it is a parameter of the
  embedding (`Preferences σ`, a record of operations over an arbitrary store state `σ`).
* `uint16_t` arithmetic is arithmetic on `Nat` reduced modulo `2 ^ 16`.
-/

namespace Olon

/-! ## Machine integers -/

/-- Conversion of a value to `uint16_t`. -/
def u16 (x : Nat) : Nat := x % 65536

/-! ## The record type `T` -/

/-- A record type `T`: the bytes of a default-constructed `T` (`T newData;`). -/
structure RecordType where
  defaultBytes : List Nat

/-- The value of `sizeof(T)`. -/
def RecordType.sizeofT (T : RecordType) : Nat := T.defaultBytes.length

/-! ## The key-value backend (`Preferences`) -/

/-- The operations of the platform class `Preferences` used by `Olon::Config<T>`, over a store
state `σ`. Every operation names the namespace the `Preferences` object was opened on.

* `begin name readOnly` reports whether the namespace was opened;
* `getBytesLength name key` is the stored length reported for `key`;
* `getBytes name key len` is the content of the caller's buffer after the call;
* `putBytes name key bytes` reports the number of bytes written;
* `clear name` removes the keys of the namespace; `end_ name` closes the handle. -/
structure Preferences (σ : Type) where
  begin : String → Bool → σ → Bool × σ
  getBytesLength : String → String → σ → Nat
  getBytes : String → String → Nat → σ → List Nat
  putBytes : String → String → List Nat → σ → Nat × σ
  clear : String → σ → σ
  end_ : String → σ → σ

/-- The same backend with another `getBytes`. -/
def Preferences.withGetBytes {σ : Type} (P : Preferences σ)
    (g : String → String → Nat → σ → List Nat) : Preferences σ :=
  { P with getBytes := g }

/-! ## The checksum -/

/-- The inner loop of `CRC16`: `for (uint8_t i = 0; i < 8; i++) { ... }`, with `rounds` iterations
left to run. -/
def CRC16.bits : Nat → Nat → Nat
  | 0, crc => crc
  | rounds + 1, crc =>
    if crc &&& 0x01 ≠ 0 then
      CRC16.bits rounds (u16 (u16 (crc >>> 1) ^^^ 0xA001))
    else
      CRC16.bits rounds (u16 (crc >>> 1))

/-- One iteration of the outer loop of `CRC16`: `crc ^= *data++;` followed by the inner loop. -/
def CRC16.byte (crc b : Nat) : Nat := CRC16.bits 8 (u16 (crc ^^^ b))

/-- The outer loop of `CRC16`, `while (data_len--) { ... }`, started from `crc`, over the
`data_len` bytes at `data`. -/
def CRC16.loop : Nat → List Nat → Nat
  | crc, [] => crc
  | crc, b :: rest => CRC16.loop (CRC16.byte crc b) rest

/-- `Olon::Config<T>::CRC16(data, data_len)`; the argument is the list of the `data_len` bytes at
`data`. -/
def CRC16 (data : List Nat) : Nat := CRC16.loop 0xFFFF data

/-! ## The configuration object -/

/-- The state of an `Olon::Config<T>` object: the public `data` (as bytes) and the private
`_valid` and `_name`. -/
structure Config where
  data : List Nat
  _valid : Bool
  _name : String

/-- The fixed key `configKey`. -/
def configKey : String := "config"

/-- The constructor `Config(String name)`: `data` is default-constructed, `_valid = false`. -/
def Config.new (T : RecordType) (name : String) : Config :=
  { data := T.defaultBytes, _valid := false, _name := name }

/-- `Olon::Config<T>::valid()`. -/
def Config.valid (c : Config) : Bool := c._valid

/-- The buffer `memBytes` that `write()` hands to `putBytes`: the bytes of `data`, then the low
and the high byte of their CRC16. -/
def writeBuffer (data : List Nat) : List Nat :=
  let crc := CRC16 data
  data ++ [crc &&& 0xFF, (crc >>> 8) &&& 0xFF]

/-- `Olon::Config<T>::write()`: the returned flag, the object and the store afterwards. -/
def Config.write {σ : Type} (P : Preferences σ) (c : Config) (s : σ) : Bool × Config × σ :=
  match P.begin c._name false s with
  | (false, s1) => (false, c, s1)
  | (true, s1) =>
    let memBytes := writeBuffer c.data
    match P.putBytes c._name configKey memBytes s1 with
    | (_savedBytes, s2) =>
      let s3 := P.end_ c._name s2
      (true, c, s3)

/-- `Olon::Config<T>::writeDefaults()`: the object and the store afterwards. -/
def Config.writeDefaults {σ : Type} (P : Preferences σ) (T : RecordType) (c : Config) (s : σ) :
    Config × σ :=
  let c1 := { c with data := T.defaultBytes }
  match Config.write P c1 s with
  | (_, c2, s1) => ({ c2 with _valid := true }, s1)

/-- `Olon::Config<T>::read()`: the returned flag, the object and the store afterwards.
On the length-mismatch path the handle is still open when the function returns, and is closed
when `prefs` goes out of scope. -/
def Config.read {σ : Type} (P : Preferences σ) (T : RecordType) (c : Config) (s : σ) :
    Bool × Config × σ :=
  let c0 := { c with _valid := false }
  match P.begin c0._name true s with
  | (false, s1) =>
    match Config.writeDefaults P T c0 s1 with
    | (c1, s2) => (false, c1, s2)
  | (true, s1) =>
    let configLen := P.getBytesLength c0._name configKey s1
    if T.sizeofT + 2 ≠ configLen then
      match Config.writeDefaults P T c0 s1 with
      | (c1, s2) => (false, c1, P.end_ c0._name s2)
    else
      let memBytes := P.getBytes c0._name configKey configLen s1
      let s2 := P.end_ c0._name s1
      let savedCRC := u16 (memBytes.getD (configLen - 2) 0 ||| (memBytes.getD (configLen - 1) 0 <<< 8))
      let calculatedCRC := CRC16 (memBytes.take (configLen - 2))
      if savedCRC ≠ calculatedCRC then
        match Config.writeDefaults P T c0 s2 with
        | (c1, s3) => (false, c1, s3)
      else
        (true, { c0 with data := memBytes.take T.sizeofT, _valid := true }, s2)

/-- `Olon::Config<T>::deleteConfig()`: the object and the store afterwards. -/
def Config.deleteConfig {σ : Type} (P : Preferences σ) (c : Config) (s : σ) : Config × σ :=
  match P.begin c._name false s with
  | (false, s1) => (c, s1)
  | (true, s1) => (c, P.end_ c._name (P.clear c._name s1))

/-! ## A concrete backend -/

/-- The state of the in-memory store: the blob stored under a namespace and a key, if any. -/
abbrev MemStore := String → String → Option (List Nat)

/-- The empty in-memory store. -/
def MemStore.empty : MemStore := fun _ _ => none

/-- The in-memory store with `blob` under `key` of namespace `name`. -/
def MemStore.put (s : MemStore) (name key : String) (blob : List Nat) : MemStore :=
  fun n k => if n = name ∧ k = key then some blob else s n k

/-- An in-memory backend. `opensRO` and `opensRW` tell whether `begin` succeeds in read-only and
in read-write mode, `writes` whether `putBytes` stores the bytes (it reports `0` bytes written and
stores nothing otherwise). -/
def memPrefs (opensRO opensRW writes : Bool) : Preferences MemStore where
  begin := fun _ readOnly s => (if readOnly then opensRO else opensRW, s)
  getBytesLength := fun name key s =>
    match s name key with
    | some blob => blob.length
    | none => 0
  getBytes := fun name key len s =>
    match s name key with
    | some blob => if blob.length = len then blob else List.replicate len 0
    | none => List.replicate len 0
  putBytes := fun name key blob s =>
    if writes then (blob.length, MemStore.put s name key blob) else (0, s)
  clear := fun name s => fun n k => if n = name then none else s n k
  end_ := fun _ s => s

/-! ## Properties of backends and of stored data -/

/-- Every element of the list is a byte. -/
def IsBytes (l : List Nat) : Prop := ∀ b ∈ l, b < 256

instance (l : List Nat) : Decidable (IsBytes l) := by
  unfold IsBytes
  infer_instance

/-- In state `s` the namespace `name` opens read-only and the backend then reports the length of
`blob` for the key `"config"` and hands back the bytes of `blob`. -/
def Serves {σ : Type} (P : Preferences σ) (name : String) (s : σ) (blob : List Nat) : Prop :=
  (P.begin name true s).1 = true ∧
  P.getBytesLength name configKey (P.begin name true s).2 = blob.length ∧
  P.getBytes name configKey blob.length (P.begin name true s).2 = blob

/-- The namespace `name` opens, in both modes and in every state. -/
def Opens {σ : Type} (P : Preferences σ) (name : String) : Prop :=
  ∀ readOnly s, (P.begin name readOnly s).1 = true

/-- The backend stores bytes faithfully: `contents s name key` is the blob held in state `s`,
opening and closing do not change it, `putBytes` replaces the blob of its key and reports its
length, `clear` removes the keys of its namespace, and the two reading operations report what is
held. -/
structure Faithful {σ : Type} (P : Preferences σ)
    (contents : σ → String → String → Option (List Nat)) : Prop where
  begin_contents : ∀ name readOnly s, contents (P.begin name readOnly s).2 = contents s
  end_contents : ∀ name s, contents (P.end_ name s) = contents s
  put_count : ∀ name key blob s, (P.putBytes name key blob s).1 = blob.length
  put_contents : ∀ name key blob s, contents (P.putBytes name key blob s).2 =
    fun n k => if n = name ∧ k = key then some blob else contents s n k
  clear_contents : ∀ name s, contents (P.clear name s) =
    fun n k => if n = name then none else contents s n k
  length_contents : ∀ name key s, P.getBytesLength name key s =
    match contents s name key with
    | some blob => blob.length
    | none => 0
  get_contents : ∀ name key s blob, contents s name key = some blob →
    P.getBytes name key blob.length s = blob

/-- Flip bit `p` (counted from the least significant bit of the first byte) of a byte sequence. -/
def flipBit (l : List Nat) (p : Nat) : List Nat :=
  l.set (p / 8) (l.getD (p / 8) 0 ^^^ (1 <<< (p % 8)))

/-- The object left by `read()` on each of its failing paths and by `writeDefaults()`. -/
def resetObj (T : RecordType) (c : Config) : Config :=
  { data := T.defaultBytes, _valid := true, _name := c._name }

/-- One round of the inner loop of `CRC16` as a function on 16-bit values (used in the proofs). -/
def round16 (crc : Nat) : Nat := if crc % 2 = 1 then (crc / 2) ^^^ 0xA001 else crc / 2

/-- An in-memory backend whose namespace always opens and whose `putBytes` fails once: while the
flag of the state is set, `putBytes` stores nothing, reports `0` bytes written and clears the
flag; afterwards it stores the bytes. -/
def flakyPrefs : Preferences (Bool × MemStore) where
  begin := fun _ _ s => (true, s)
  getBytesLength := fun name key s => (memPrefs true true true).getBytesLength name key s.2
  getBytes := fun name key len s => (memPrefs true true true).getBytes name key len s.2
  putBytes := fun name key blob s =>
    if s.1 then (0, (false, s.2)) else (blob.length, (false, MemStore.put s.2 name key blob))
  clear := fun name s => (s.1, (memPrefs true true true).clear name s.2)
  end_ := fun _ s => s

/-- What a caller can do with an `Olon::Config<T>` object: call one of its methods, or assign the
public member `data`. -/
inductive Op where
  | read
  | write
  | writeDefaults
  | deleteConfig
  | setData (d : List Nat)
  deriving DecidableEq

/-- The effect of one caller action on the object and the store. -/
def Config.step {σ : Type} (P : Preferences σ) (T : RecordType) (op : Op) (x : Config × σ) :
    Config × σ :=
  match op with
  | Op.read => (Config.read P T x.1 x.2).2
  | Op.write => (Config.write P x.1 x.2).2
  | Op.writeDefaults => Config.writeDefaults P T x.1 x.2
  | Op.deleteConfig => Config.deleteConfig P x.1 x.2
  | Op.setData d => ({ x.1 with data := d }, x.2)

/-- The effect of a sequence of caller actions, first action first. -/
def Config.run {σ : Type} (P : Preferences σ) (T : RecordType) :
    List Op → Config × σ → Config × σ
  | [], x => x
  | op :: rest, x => Config.run P T rest (Config.step P T op x)

/-! ## Lemmas on the checksum -/

theorem u16_lt (x : Nat) : u16 x < 65536 := Nat.mod_lt _ (by decide)
theorem u16_of_lt {x : Nat} (h : x < 65536) : u16 x = x := Nat.mod_eq_of_lt h

theorem xor_poly_lt {a : Nat} (h : a < 65536) : a ^^^ 0xA001 < 65536 :=
  Nat.xor_lt_two_pow (n := 16) h (by decide)

theorem xor_poly_ge {a : Nat} (h : a < 32768) : 32768 ≤ a ^^^ 0xA001 := by
  have hb : (a ^^^ 0xA001).testBit 15 = true := by
    rw [Nat.testBit_xor, Nat.testBit_lt_two_pow (i := 15) h]
    decide
  exact Nat.testBit_implies_ge hb

/-- One round of the inner loop, on a 16-bit value. -/
theorem CRC16.bits_succ_of_lt (rounds : Nat) {crc : Nat} (h : crc < 65536) :
    CRC16.bits (rounds + 1) crc =
      CRC16.bits rounds (if crc % 2 = 1 then (crc / 2) ^^^ 0xA001 else crc / 2) := by
  have hs : crc >>> 1 = crc / 2 := by simp [Nat.shiftRight_eq_div_pow]
  have h2 : crc / 2 < 65536 := by omega
  have h3 : (crc / 2) ^^^ 0xA001 < 65536 := xor_poly_lt h2
  by_cases hp : crc % 2 = 1
  · have : crc &&& 0x01 ≠ 0 := by rw [Nat.and_one_is_mod]; omega
    simp only [CRC16.bits, this, hs, hp, if_true, u16_of_lt h2, u16_of_lt h3, ne_eq, not_false_eq_true]
  · have : ¬ (crc &&& 0x01 ≠ 0) := by rw [Nat.and_one_is_mod]; omega
    simp only [CRC16.bits, this, hs, hp, if_false, u16_of_lt h2]


theorem round16_lt {crc : Nat} (h : crc < 65536) : round16 crc < 65536 := by
  unfold round16
  split
  · exact xor_poly_lt (by omega)
  · omega

theorem round16_inj {x y : Nat} (hx : x < 65536) (hy : y < 65536)
    (h : round16 x = round16 y) : x = y := by
  unfold round16 at h
  have gx := xor_poly_ge (a := x / 2) (by omega)
  have gy := xor_poly_ge (a := y / 2) (by omega)
  by_cases px : x % 2 = 1 <;> by_cases py : y % 2 = 1
  · rw [if_pos px, if_pos py] at h
    have := Nat.xor_left_inj.mp h
    omega
  · rw [if_pos px, if_neg py] at h
    omega
  · rw [if_neg px, if_pos py] at h
    omega
  · rw [if_neg px, if_neg py] at h
    omega

theorem CRC16.bits_lt (rounds : Nat) : ∀ {crc : Nat}, crc < 65536 → CRC16.bits rounds crc < 65536 := by
  induction rounds with
  | zero => intro crc h; simpa [CRC16.bits] using h
  | succ k ih =>
    intro crc h
    rw [CRC16.bits_succ_of_lt k h]
    exact ih (round16_lt h)

theorem CRC16.bits_inj (rounds : Nat) : ∀ {x y : Nat}, x < 65536 → y < 65536 →
    CRC16.bits rounds x = CRC16.bits rounds y → x = y := by
  induction rounds with
  | zero => intro x y _ _ h; simpa [CRC16.bits] using h
  | succ k ih =>
    intro x y hx hy h
    rw [CRC16.bits_succ_of_lt k hx, CRC16.bits_succ_of_lt k hy] at h
    exact round16_inj hx hy (ih (round16_lt hx) (round16_lt hy) h)

theorem CRC16.byte_lt (crc b : Nat) : CRC16.byte crc b < 65536 :=
  CRC16.bits_lt 8 (u16_lt _)

theorem CRC16.loop_lt : ∀ (data : List Nat) {crc : Nat}, crc < 65536 → CRC16.loop crc data < 65536
  | [], _, h => by simpa [CRC16.loop] using h
  | b :: rest, crc, _ => by
    rw [CRC16.loop]
    exact CRC16.loop_lt rest (CRC16.byte_lt crc b)

theorem CRC16_lt (data : List Nat) : CRC16 data < 65536 :=
  CRC16.loop_lt data (by decide)

theorem xor_byte_lt {crc b : Nat} (hc : crc < 65536) (hb : b < 256) : crc ^^^ b < 65536 :=
  Nat.xor_lt_two_pow (n := 16) hc (by omega)

/-- On 16-bit states and bytes, one byte step is injective in the state. -/
theorem CRC16.byte_inj_state {x y b : Nat} (hx : x < 65536) (hy : y < 65536) (hb : b < 256)
    (h : CRC16.byte x b = CRC16.byte y b) : x = y := by
  unfold CRC16.byte at h
  have h1 := CRC16.bits_inj 8 (u16_lt _) (u16_lt _) h
  rw [u16_of_lt (xor_byte_lt hx hb), u16_of_lt (xor_byte_lt hy hb)] at h1
  exact Nat.xor_left_inj.mp h1

/-- On a 16-bit state, one byte step is injective in the byte. -/
theorem CRC16.byte_inj_byte {x b b' : Nat} (hx : x < 65536) (hb : b < 256) (hb' : b' < 256)
    (h : CRC16.byte x b = CRC16.byte x b') : b = b' := by
  unfold CRC16.byte at h
  have h1 := CRC16.bits_inj 8 (u16_lt _) (u16_lt _) h
  rw [u16_of_lt (xor_byte_lt hx hb), u16_of_lt (xor_byte_lt hx hb')] at h1
  exact Nat.xor_right_inj.mp h1

theorem CRC16.loop_inj : ∀ (data : List Nat) {x y : Nat}, IsBytes data → x < 65536 → y < 65536 →
    CRC16.loop x data = CRC16.loop y data → x = y
  | [], _, _, _, _, _, h => by simpa [CRC16.loop] using h
  | b :: rest, x, y, hd, hx, hy, h => by
    rw [CRC16.loop, CRC16.loop] at h
    have hb : b < 256 := hd b (List.mem_cons_self _ _)
    have hr : IsBytes rest := fun a ha => hd a (List.mem_cons_of_mem _ ha)
    exact CRC16.byte_inj_state hx hy hb
      (CRC16.loop_inj rest hr (CRC16.byte_lt x b) (CRC16.byte_lt y b) h)

theorem CRC16.loop_append (xs ys : List Nat) : ∀ crc : Nat,
    CRC16.loop crc (xs ++ ys) = CRC16.loop (CRC16.loop crc xs) ys := by
  induction xs with
  | nil => intro crc; rfl
  | cons b rest ih => intro crc; exact ih (CRC16.byte crc b)


theorem flip_byte_lt {b k : Nat} (hb : b < 256) (hk : k < 8) : b ^^^ (1 <<< k) < 256 := by
  have h1 : 1 <<< k < 2 ^ 8 := by
    rw [Nat.shiftLeft_eq, one_mul]
    exact Nat.pow_lt_pow_right (by decide) hk
  exact Nat.xor_lt_two_pow (n := 8) hb h1

theorem flip_byte_ne (b k : Nat) : b ^^^ (1 <<< k) ≠ b := by
  intro h
  have h0 : b ^^^ (1 <<< k) = b ^^^ 0 := by simpa using h
  have h1 : 1 <<< k = 0 := Nat.xor_right_inj.mp h0
  rw [Nat.shiftLeft_eq, one_mul] at h1
  exact absurd h1 (by positivity)

theorem flipBit_eq {l : List Nat} {p : Nat} (hp : p < 8 * l.length) :
    ∃ pre b post, l = pre ++ b :: post ∧
      flipBit l p = pre ++ (b ^^^ (1 <<< (p % 8))) :: post := by
  have hi : p / 8 < l.length := by omega
  refine ⟨l.take (p / 8), l[p / 8], l.drop (p / 8 + 1), ?_, ?_⟩
  · simp
  · unfold flipBit
    rw [List.getD_eq_getElem l 0 hi, List.set_eq_take_append_cons_drop, if_pos hi]

theorem IsBytes.append_left {xs ys : List Nat} (h : IsBytes (xs ++ ys)) : IsBytes xs :=
  fun b hb => h b (List.mem_append_left _ hb)

theorem IsBytes.append_right {xs ys : List Nat} (h : IsBytes (xs ++ ys)) : IsBytes ys :=
  fun b hb => h b (List.mem_append_right _ hb)

/-- CRC16 tells a byte sequence from the same sequence with one bit flipped. -/
theorem CRC16_flipBit_ne {d : List Nat} (hd : IsBytes d) {p : Nat} (hp : p < 8 * d.length) :
    CRC16 (flipBit d p) ≠ CRC16 d := by
  obtain ⟨pre, b, post, hl, hf⟩ := flipBit_eq hp
  rw [hf]
  intro h
  rw [hl] at hd
  have hb : b < 256 := hd b (by simp)
  have hpost : IsBytes post := fun a ha => hd a (by simp [ha])
  have hk : p % 8 < 8 := Nat.mod_lt _ (by decide)
  have hs : CRC16.loop 0xFFFF pre < 65536 := CRC16.loop_lt pre (by decide)
  conv at h => rhs; rw [hl]
  unfold CRC16 at h
  rw [CRC16.loop_append, CRC16.loop_append, CRC16.loop, CRC16.loop] at h
  have h1 := CRC16.loop_inj post hpost (CRC16.byte_lt _ _) (CRC16.byte_lt _ _) h
  exact flip_byte_ne b (p % 8) (CRC16.byte_inj_byte hs (flip_byte_lt hb hk) hb h1)

theorem le16_decode {c : Nat} (h : c < 65536) :
    u16 ((c &&& 0xFF) ||| (((c >>> 8) &&& 0xFF) <<< 8)) = c := by
  have h1 : c &&& 0xFF = c % 256 := Nat.and_pow_two_sub_one_eq_mod c 8
  have h2 : (c >>> 8) &&& 0xFF = (c >>> 8) % 256 := Nat.and_pow_two_sub_one_eq_mod _ 8
  have h3 : c >>> 8 = c / 256 := by simp [Nat.shiftRight_eq_div_pow]
  rw [h1, h2, h3, Nat.shiftLeft_eq, Nat.lor_comm]
  have h4 : c / 256 % 256 * 2 ^ 8 = 2 ^ 8 * (c / 256 % 256) := Nat.mul_comm _ _
  rw [h4, ← Nat.mul_add_lt_is_or (i := 8) (Nat.mod_lt _ (by decide))]
  unfold u16
  omega

/-! ## Lemmas on the operations -/

theorem configKey_eq : configKey = "config" := rfl

theorem writeBuffer_length (d : List Nat) : (writeBuffer d).length = d.length + 2 := by
  simp [writeBuffer]

theorem writeBuffer_take (d : List Nat) : (writeBuffer d).take d.length = d := by
  simp [writeBuffer]

theorem Config.write_flag {σ : Type} (P : Preferences σ) (c : Config) (s : σ) :
    (Config.write P c s).1 = (P.begin c._name false s).1 := by
  unfold Config.write
  rcases P.begin c._name false s with ⟨ok, s1⟩
  cases ok <;> rfl

theorem Config.write_obj {σ : Type} (P : Preferences σ) (c : Config) (s : σ) :
    (Config.write P c s).2.1 = c := by
  unfold Config.write
  rcases P.begin c._name false s with ⟨ok, s1⟩
  cases ok <;> rfl

theorem Config.write_store {σ : Type} (P : Preferences σ) (c : Config) (s : σ)
    (h : (P.begin c._name false s).1 = true) :
    (Config.write P c s).2.2 =
      P.end_ c._name (P.putBytes c._name configKey (writeBuffer c.data)
        (P.begin c._name false s).2).2 := by
  unfold Config.write
  rcases hb : P.begin c._name false s with ⟨ok, s1⟩
  rw [hb] at h
  cases ok
  · cases h
  · rfl

theorem Config.writeDefaults_obj {σ : Type} (P : Preferences σ) (T : RecordType) (c : Config)
    (s : σ) : (Config.writeDefaults P T c s).1 = resetObj T c := by
  unfold Config.writeDefaults
  dsimp only
  have h := Config.write_obj P { c with data := T.defaultBytes } s
  revert h
  generalize Config.write P { c with data := T.defaultBytes } s = w
  rcases w with ⟨r, c2, s1⟩
  intro h
  simp only at h
  subst h
  rfl

theorem Config.read_of_not_open {σ : Type} (P : Preferences σ) (T : RecordType) (c : Config)
    (s : σ) (h : (P.begin c._name true s).1 = false) :
    (Config.read P T c s).1 = false ∧ (Config.read P T c s).2.1 = resetObj T c := by
  unfold Config.read
  simp only
  split
  · exact ⟨rfl, Config.writeDefaults_obj P T _ _⟩
  · next s1 hb =>
    rw [hb] at h
    cases h

theorem Config.read_of_length_ne {σ : Type} (P : Preferences σ) (T : RecordType) (c : Config)
    (s : σ) (h : P.getBytesLength c._name configKey (P.begin c._name true s).2 ≠ T.sizeofT + 2) :
    (Config.read P T c s).1 = false ∧ (Config.read P T c s).2.1 = resetObj T c := by
  unfold Config.read
  simp only
  split
  · exact ⟨rfl, Config.writeDefaults_obj P T _ _⟩
  · next s1 hb =>
    rw [hb] at h
    have hne : T.sizeofT + 2 ≠ P.getBytesLength c._name configKey s1 := fun e => h e.symm
    rw [if_pos hne]
    exact ⟨rfl, Config.writeDefaults_obj P T _ _⟩

/-- The outcome of `read()` when the backend serves a blob of the expected length: decided by
the comparison of the stored and the computed checksum. -/
theorem Config.read_of_serves {σ : Type} (P : Preferences σ) (T : RecordType) (c : Config)
    (s : σ) (b : List Nat) (hs : Serves P c._name s b) (hl : b.length = T.sizeofT + 2) :
    (u16 (b.getD T.sizeofT 0 ||| (b.getD (T.sizeofT + 1) 0 <<< 8)) = CRC16 (b.take T.sizeofT) →
      (Config.read P T c s).1 = true ∧
      (Config.read P T c s).2.1 =
        { data := b.take T.sizeofT, _valid := true, _name := c._name } ∧
      (Config.read P T c s).2.2 = P.end_ c._name (P.begin c._name true s).2) ∧
    (u16 (b.getD T.sizeofT 0 ||| (b.getD (T.sizeofT + 1) 0 <<< 8)) ≠ CRC16 (b.take T.sizeofT) →
      (Config.read P T c s).1 = false ∧ (Config.read P T c s).2.1 = resetObj T c) := by
  obtain ⟨ho, hlen, hget⟩ := hs
  unfold Config.read
  simp only
  split
  · next s1 hb =>
    rw [hb] at ho
    cases ho
  · next s1 hb =>
    rw [hb] at hlen hget
    simp only at hlen hget
    rw [hl] at hlen hget
    have he : ¬ (T.sizeofT + 2 ≠ P.getBytesLength c._name configKey s1) := by
      rw [hlen]; simp
    rw [if_neg he, hlen, hget]
    simp only [Nat.add_sub_cancel, show T.sizeofT + 2 - 1 = T.sizeofT + 1 from rfl, hb]
    constructor
    · intro hc
      rw [if_neg (not_not.mpr hc)]
      exact ⟨rfl, rfl, rfl⟩
    · intro hc
      rw [if_pos hc]
      exact ⟨rfl, Config.writeDefaults_obj P T _ _⟩

/-- A blob made of `d` followed by the two bytes of `crc`, low byte first. -/
theorem blob_lo (d : List Nat) (x y : Nat) : (d ++ [x, y]).getD d.length 0 = x := by
  rw [List.getD_append_right _ _ _ _ (Nat.le_refl _)]
  simp

theorem blob_hi (d : List Nat) (x y : Nat) : (d ++ [x, y]).getD (d.length + 1) 0 = y := by
  rw [List.getD_append_right _ _ _ _ (Nat.le_add_right _ _)]
  simp

theorem blob_savedCRC (d : List Nat) {crc : Nat} (h : crc < 65536) :
    u16 ((d ++ [crc &&& 0xFF, (crc >>> 8) &&& 0xFF]).getD d.length 0 |||
      ((d ++ [crc &&& 0xFF, (crc >>> 8) &&& 0xFF]).getD (d.length + 1) 0 <<< 8)) = crc := by
  rw [blob_lo, blob_hi]
  exact le16_decode h

theorem flipBit_length (l : List Nat) (p : Nat) : (flipBit l p).length = l.length := by
  simp [flipBit]

theorem flipBit_append_left (d t : List Nat) {p : Nat} (hp : p < 8 * d.length) :
    flipBit (d ++ t) p = flipBit d p ++ t := by
  have hi : p / 8 < d.length := by omega
  unfold flipBit
  rw [List.set_append_left _ _ hi, List.getD_append _ _ _ _ hi]

theorem memPrefs_faithful (opensRO opensRW : Bool) :
    Faithful (memPrefs opensRO opensRW true) (fun s => s) where
  begin_contents := fun _ _ _ => rfl
  end_contents := fun _ _ => rfl
  put_count := fun _ _ _ _ => rfl
  put_contents := fun _ _ _ _ => rfl
  clear_contents := fun _ _ => rfl
  length_contents := fun _ _ _ => rfl
  get_contents := by
    intro name key s blob h
    simp only [memPrefs] at h ⊢
    rw [h]
    simp

theorem memPrefs_opens (writes : Bool) (name : String) : Opens (memPrefs true true writes) name := by
  intro readOnly s
  cases readOnly <;> rfl

theorem Faithful.serves {σ : Type} {P : Preferences σ}
    {contents : σ → String → String → Option (List Nat)} (hf : Faithful P contents)
    {name : String} {s : σ} {b : List Nat} (ho : (P.begin name true s).1 = true)
    (hc : contents s name configKey = some b) : Serves P name s b := by
  have hc1 : contents (P.begin name true s).2 name configKey = some b := by
    rw [hf.begin_contents]; exact hc
  refine ⟨ho, ?_, hf.get_contents _ _ _ _ hc1⟩
  rw [hf.length_contents, hc1]

/-- On a faithful backend, a successful `write()` leaves the buffer of `write()` under the key
`"config"` of the namespace. -/
theorem Config.write_contents {σ : Type} {P : Preferences σ}
    {contents : σ → String → String → Option (List Nat)} (hf : Faithful P contents)
    (c : Config) (s : σ) (ho : (P.begin c._name false s).1 = true) :
    contents (Config.write P c s).2.2 c._name configKey = some (writeBuffer c.data) := by
  rw [Config.write_store P c s ho, hf.end_contents, hf.put_contents]
  simp

theorem Config.write_withGetBytes {σ : Type} (P : Preferences σ)
    (g : String → String → Nat → σ → List Nat) (c : Config) (s : σ) :
    Config.write (P.withGetBytes g) c s = Config.write P c s := rfl

theorem Config.writeDefaults_withGetBytes {σ : Type} (P : Preferences σ)
    (g : String → String → Nat → σ → List Nat) (T : RecordType) (c : Config) (s : σ) :
    Config.writeDefaults (P.withGetBytes g) T c s = Config.writeDefaults P T c s := rfl

/-- Whenever `read()` returns `false` it has gone through `writeDefaults()`. -/
theorem Config.read_false_obj {σ : Type} (P : Preferences σ) (T : RecordType) (c : Config)
    (s : σ) (h : (Config.read P T c s).1 = false) : (Config.read P T c s).2.1 = resetObj T c := by
  revert h
  unfold Config.read
  simp only
  split
  · intro _
    exact Config.writeDefaults_obj P T _ _
  · split
    · intro _
      exact Config.writeDefaults_obj P T _ _
    · split
      · intro _
        exact Config.writeDefaults_obj P T _ _
      · intro h
        cases h

/-! ## The claims -/

/-- C1 (round trip). On a backend that stores bytes faithfully and whose namespace opens, for
every record value `d` of `sizeof(T)` bytes, `write()` on a `Config` holding `d` followed by
`read()` on a freshly constructed `Config` of the same namespace returns `true`, leaves `data`
equal to `d` and leaves `valid()` true. -/
theorem write_then_read_roundtrip {σ : Type} (P : Preferences σ)
    (contents : σ → String → String → Option (List Nat)) (T : RecordType) (d : List Nat)
    (valid0 : Bool) (name : String) (s : σ)
    (hf : Faithful P contents) (ho : Opens P name) (hd : d.length = T.sizeofT) :
    (Config.read P T (Config.new T name)
        (Config.write P { data := d, _valid := valid0, _name := name } s).2.2).1 = true ∧
    (Config.read P T (Config.new T name)
        (Config.write P { data := d, _valid := valid0, _name := name } s).2.2).2.1.data = d ∧
    (Config.read P T (Config.new T name)
        (Config.write P { data := d, _valid := valid0, _name := name } s).2.2).2.1.valid
      = true := by
  have hc := Config.write_contents hf { data := d, _valid := valid0, _name := name } s (ho false s)
  have hs : Serves P (Config.new T name)._name
      (Config.write P { data := d, _valid := valid0, _name := name } s).2.2 (writeBuffer d) :=
    hf.serves (ho true _) hc
  have hl : (writeBuffer d).length = T.sizeofT + 2 := by rw [writeBuffer_length, hd]
  have hcrc : u16 ((writeBuffer d).getD T.sizeofT 0 |||
      ((writeBuffer d).getD (T.sizeofT + 1) 0 <<< 8)) = CRC16 ((writeBuffer d).take T.sizeofT) := by
    rw [← hd, writeBuffer_take]
    exact blob_savedCRC d (CRC16_lt d)
  obtain ⟨h1, h2, _⟩ := (Config.read_of_serves P T _ _ _ hs hl).1 hcrc
  refine ⟨h1, ?_, ?_⟩
  · rw [h2, ← hd, writeBuffer_take]
  · rw [h2]; rfl

/-- Witness of C1: the record `[2, 0]` written to and read back from the in-memory store. -/
theorem write_then_read_roundtrip_witness :
    (Config.read (memPrefs true true true) ⟨[1, 1]⟩ (Config.new ⟨[1, 1]⟩ "main")
        (Config.write (memPrefs true true true) { data := [2, 0], _valid := false, _name := "main" }
          MemStore.empty).2.2).1 = true ∧
    (Config.read (memPrefs true true true) ⟨[1, 1]⟩ (Config.new ⟨[1, 1]⟩ "main")
        (Config.write (memPrefs true true true) { data := [2, 0], _valid := false, _name := "main" }
          MemStore.empty).2.2).2.1.data = [2, 0] ∧
    (Config.read (memPrefs true true true) ⟨[1, 1]⟩ (Config.new ⟨[1, 1]⟩ "main")
        (Config.write (memPrefs true true true) { data := [2, 0], _valid := false, _name := "main" }
          MemStore.empty).2.2).2.1.valid = true :=
  write_then_read_roundtrip (memPrefs true true true) (fun s => s) ⟨[1, 1]⟩ [2, 0] false "main"
    MemStore.empty (memPrefs_faithful true true) (memPrefs_opens true "main") rfl

/-- C2 (single-bit corruption detection). For every record value `d` of `sizeof(T)` bytes and
every bit position `p` inside the data bytes, CRC16 of the data with bit `p` flipped differs from
CRC16 of `d`; and when the backend serves the blob stored by `write()` for `d` with exactly
that bit flipped, `read()` returns `false` and `data` is reset to the default-constructed `T`. -/
theorem single_bit_flip_detected {σ : Type} (P : Preferences σ) (T : RecordType) (d : List Nat)
    (p : Nat) (c : Config) (s : σ)
    (hb : IsBytes d) (hd : d.length = T.sizeofT) (hp : p < 8 * T.sizeofT)
    (hs : Serves P c._name s (flipBit (writeBuffer d) p)) :
    CRC16 (flipBit d p) ≠ CRC16 d ∧
    (Config.read P T c s).1 = false ∧ (Config.read P T c s).2.1.data = T.defaultBytes := by
  have hp' : p < 8 * d.length := by rw [hd]; exact hp
  have hne := CRC16_flipBit_ne hb hp'
  refine ⟨hne, ?_⟩
  have hfl : flipBit (writeBuffer d) p =
      flipBit d p ++ [CRC16 d &&& 0xFF, (CRC16 d >>> 8) &&& 0xFF] := by
    unfold writeBuffer
    exact flipBit_append_left d _ hp'
  have hlen : (flipBit d p).length = T.sizeofT := by rw [flipBit_length, hd]
  rw [hfl] at hs
  have hl : (flipBit d p ++ [CRC16 d &&& 0xFF, (CRC16 d >>> 8) &&& 0xFF]).length
      = T.sizeofT + 2 := by simp [hlen]
  have hsaved := blob_savedCRC (flipBit d p) (CRC16_lt d)
  rw [hlen] at hsaved
  have htake : (flipBit d p ++ [CRC16 d &&& 0xFF, (CRC16 d >>> 8) &&& 0xFF]).take T.sizeofT
      = flipBit d p := List.take_left' hlen
  have hcrc : u16 ((flipBit d p ++ [CRC16 d &&& 0xFF, (CRC16 d >>> 8) &&& 0xFF]).getD T.sizeofT 0 |||
      ((flipBit d p ++ [CRC16 d &&& 0xFF, (CRC16 d >>> 8) &&& 0xFF]).getD (T.sizeofT + 1) 0 <<< 8))
      ≠ CRC16 ((flipBit d p ++ [CRC16 d &&& 0xFF, (CRC16 d >>> 8) &&& 0xFF]).take T.sizeofT) := by
    rw [hsaved, htake]
    exact fun e => hne e.symm
  obtain ⟨h1, h2⟩ := (Config.read_of_serves P T c s _ hs hl).2 hcrc
  exact ⟨h1, by rw [h2]; rfl⟩

/-- Witness of C2: the blob written for the record `[2, 0]`, with bit 9 (bit 1 of the second
byte) flipped, held by the in-memory store. -/
theorem single_bit_flip_detected_witness :
    CRC16 (flipBit [2, 0] 9) ≠ CRC16 [2, 0] ∧
    (Config.read (memPrefs true true true) ⟨[1, 1]⟩ (Config.new ⟨[1, 1]⟩ "main")
      (MemStore.put MemStore.empty "main" "config" (flipBit (writeBuffer [2, 0]) 9))).1 = false ∧
    (Config.read (memPrefs true true true) ⟨[1, 1]⟩ (Config.new ⟨[1, 1]⟩ "main")
      (MemStore.put MemStore.empty "main" "config" (flipBit (writeBuffer [2, 0]) 9))).2.1.data
      = [1, 1] :=
  single_bit_flip_detected (memPrefs true true true) ⟨[1, 1]⟩ [2, 0] 9 (Config.new ⟨[1, 1]⟩ "main")
    (MemStore.put MemStore.empty "main" "config" (flipBit (writeBuffer [2, 0]) 9))
    (by decide) rfl (by decide) ⟨rfl, by decide, by decide⟩

/-- C3 (length check). Whenever the length reported for the key `"config"` differs from
`sizeof(T) + 2`, `read()` returns `false` and resets `data` to the default `T`, and the whole
outcome is the same whatever bytes the backend would hand back: the blob is not consulted. -/
theorem length_mismatch_rejected {σ : Type} (P : Preferences σ) (T : RecordType) (c : Config)
    (s : σ)
    (h : P.getBytesLength c._name configKey (P.begin c._name true s).2 ≠ T.sizeofT + 2) :
    (Config.read P T c s).1 = false ∧
    (Config.read P T c s).2.1.data = T.defaultBytes ∧
    ∀ g : String → String → Nat → σ → List Nat,
      Config.read (P.withGetBytes g) T c s = Config.read P T c s := by
  obtain ⟨h1, h2⟩ := Config.read_of_length_ne P T c s h
  refine ⟨h1, by rw [h2]; rfl, ?_⟩
  intro g
  unfold Config.read
  simp only [Config.writeDefaults_withGetBytes]
  have hb : (P.withGetBytes g).begin = P.begin := rfl
  have hlen : (P.withGetBytes g).getBytesLength = P.getBytesLength := rfl
  have hend : (P.withGetBytes g).end_ = P.end_ := rfl
  rw [hb, hlen, hend]
  split
  · rfl
  · next s1 hs1 =>
    rw [hs1] at h
    have hne : T.sizeofT + 2 ≠ P.getBytesLength c._name configKey s1 := fun e => h e.symm
    rw [if_pos hne, if_pos hne]

/-- Witness of C3: a stored blob of three bytes whose last two bytes are the checksum of the
first one, read as a record of two bytes. -/
theorem length_mismatch_rejected_witness :
    (Config.read (memPrefs true true true) ⟨[1, 1]⟩ (Config.new ⟨[1, 1]⟩ "main")
      (MemStore.put MemStore.empty "main" "config" [7, 254, 130])).1 = false ∧
    (Config.read (memPrefs true true true) ⟨[1, 1]⟩ (Config.new ⟨[1, 1]⟩ "main")
      (MemStore.put MemStore.empty "main" "config" [7, 254, 130])).2.1.data = [1, 1] ∧
    ∀ g : String → String → Nat → MemStore → List Nat,
      Config.read ((memPrefs true true true).withGetBytes g) ⟨[1, 1]⟩ (Config.new ⟨[1, 1]⟩ "main")
          (MemStore.put MemStore.empty "main" "config" [7, 254, 130]) =
        Config.read (memPrefs true true true) ⟨[1, 1]⟩ (Config.new ⟨[1, 1]⟩ "main")
          (MemStore.put MemStore.empty "main" "config" [7, 254, 130]) :=
  length_mismatch_rejected (memPrefs true true true) ⟨[1, 1]⟩ (Config.new ⟨[1, 1]⟩ "main")
    (MemStore.put MemStore.empty "main" "config" [7, 254, 130]) (by decide)

/-- C4 (load acceptance). When the namespace opens and the backend serves a blob `b` of exactly
`sizeof(T) + 2` bytes whose last two bytes, read little-endian, equal CRC16 of its first
`sizeof(T)` bytes, `read()` returns `true`, `data` is the first `sizeof(T)` bytes of `b`, and
`valid()` is true. -/
theorem read_accepts_checksummed_blob {σ : Type} (P : Preferences σ) (T : RecordType)
    (c : Config) (s : σ) (b : List Nat)
    (hs : Serves P c._name s b) (hl : b.length = T.sizeofT + 2)
    (hcrc : b.getD T.sizeofT 0 ||| (b.getD (T.sizeofT + 1) 0 <<< 8) = CRC16 (b.take T.sizeofT)) :
    (Config.read P T c s).1 = true ∧
    (Config.read P T c s).2.1.data = b.take T.sizeofT ∧
    (Config.read P T c s).2.1.valid = true := by
  have hu : u16 (b.getD T.sizeofT 0 ||| (b.getD (T.sizeofT + 1) 0 <<< 8))
      = CRC16 (b.take T.sizeofT) := by
    rw [hcrc]
    exact u16_of_lt (CRC16_lt _)
  obtain ⟨h1, h2, _⟩ := (Config.read_of_serves P T c s b hs hl).1 hu
  exact ⟨h1, by rw [h2], by rw [h2]; rfl⟩

/-- Witness of C4: the blob `[3, 1, 0xC0, 0x80]` placed in the in-memory store. -/
theorem read_accepts_checksummed_blob_witness :
    (Config.read (memPrefs true true true) ⟨[1, 1]⟩ (Config.new ⟨[1, 1]⟩ "main")
      (MemStore.put MemStore.empty "main" "config" [3, 1, 0xC0, 0x80])).1 = true ∧
    (Config.read (memPrefs true true true) ⟨[1, 1]⟩ (Config.new ⟨[1, 1]⟩ "main")
      (MemStore.put MemStore.empty "main" "config" [3, 1, 0xC0, 0x80])).2.1.data
      = [3, 1, 0xC0, 0x80].take (RecordType.sizeofT ⟨[1, 1]⟩) ∧
    (Config.read (memPrefs true true true) ⟨[1, 1]⟩ (Config.new ⟨[1, 1]⟩ "main")
      (MemStore.put MemStore.empty "main" "config" [3, 1, 0xC0, 0x80])).2.1.valid = true :=
  read_accepts_checksummed_blob (memPrefs true true true) ⟨[1, 1]⟩ (Config.new ⟨[1, 1]⟩ "main")
    (MemStore.put MemStore.empty "main" "config" [3, 1, 0xC0, 0x80]) [3, 1, 0xC0, 0x80]
    ⟨rfl, by decide, by decide⟩ rfl (by decide)

/-- C5 (stored format). When the namespace opens read-write, `write()` on a record `d` of
`sizeof(T)` bytes hands to `putBytes`, under the key `"config"`, the bytes of `d` followed by the
low and the high byte of CRC16 of `d`; the blob has `sizeof(T) + 2` bytes, and on a backend that
stores bytes faithfully it is what the namespace holds under `"config"` afterwards. -/
theorem write_stores_record_then_crc {σ : Type} (P : Preferences σ)
    (contents : σ → String → String → Option (List Nat)) (T : RecordType) (d : List Nat)
    (valid0 : Bool) (name : String) (s : σ)
    (hf : Faithful P contents) (ho : (P.begin name false s).1 = true)
    (hd : d.length = T.sizeofT) :
    (Config.write P { data := d, _valid := valid0, _name := name } s).2.2 =
      P.end_ name (P.putBytes name "config"
        (d ++ [CRC16 d &&& 0xFF, (CRC16 d >>> 8) &&& 0xFF]) (P.begin name false s).2).2 ∧
    contents (Config.write P { data := d, _valid := valid0, _name := name } s).2.2 name "config" =
      some (d ++ [CRC16 d &&& 0xFF, (CRC16 d >>> 8) &&& 0xFF]) ∧
    (d ++ [CRC16 d &&& 0xFF, (CRC16 d >>> 8) &&& 0xFF]).length = T.sizeofT + 2 := by
  refine ⟨?_, ?_, ?_⟩
  · exact Config.write_store P { data := d, _valid := valid0, _name := name } s ho
  · exact Config.write_contents hf { data := d, _valid := valid0, _name := name } s ho
  · simp [hd]

/-- Witness of C5: the record `[2, 0]` written to the empty in-memory store; its CRC16 is
`0xD000`, stored as `0x00, 0xD0`. -/
theorem write_stores_record_then_crc_witness :
    (Config.write (memPrefs true true true) { data := [2, 0], _valid := false, _name := "main" }
        MemStore.empty).2.2 =
      (memPrefs true true true).end_ "main" ((memPrefs true true true).putBytes "main" "config"
        [2, 0, 0x00, 0xD0] ((memPrefs true true true).begin "main" false MemStore.empty).2).2 ∧
    (Config.write (memPrefs true true true) { data := [2, 0], _valid := false, _name := "main" }
        MemStore.empty).2.2 "main" "config" = some [2, 0, 0x00, 0xD0] ∧
    [2, 0, 0x00, 0xD0].length = RecordType.sizeofT ⟨[1, 1]⟩ + 2 :=
  write_stores_record_then_crc (memPrefs true true true) (fun s => s) ⟨[1, 1]⟩ [2, 0] false "main"
    MemStore.empty (memPrefs_faithful true true) rfl rfl

/-- C6, as the code has it: CRC16 of the two-byte sequence `[0x00, 0x00]` is `0xB001`. -/
theorem CRC16_two_zero_bytes : CRC16 [0x00, 0x00] = 0xB001 := by
  decide

/-- C6 as stated fails: CRC16 of `[0x00, 0x00]` is not `0x1EA0`. -/
theorem CRC16_zero_pair_is_not_1EA0 : CRC16 [0x00, 0x00] ≠ 0x1EA0 := by
  decide

/-- C7 (checksum of empty input). CRC16 of a byte sequence of length 0 is `0xFFFF`. -/
theorem CRC16_empty : CRC16 [] = 0xFFFF := rfl

/-- C8, the code at the failing input: on a backend whose namespace opens read-write but whose
`putBytes` reports 0 bytes written and stores nothing, `write()` returns `true`. -/
theorem write_true_though_nothing_written :
    ((memPrefs true true false).begin "main" false MemStore.empty).1 = true ∧
    ((memPrefs true true false).putBytes "main" configKey (writeBuffer [1, 1])
      ((memPrefs true true false).begin "main" false MemStore.empty).2).1 = 0 ∧
    (Config.write (memPrefs true true false) { data := [1, 1], _valid := true, _name := "main" }
      MemStore.empty).1 = true ∧
    (Config.write (memPrefs true true false) { data := [1, 1], _valid := true, _name := "main" }
      MemStore.empty).2.2 "main" "config" = none := by
  decide

/-- C9, as the code has it: whenever `read()` returns `false` (namespace not opened, length
mismatch or checksum mismatch), `valid()` is true after `read()` returns. -/
theorem valid_true_after_failed_read {σ : Type} (P : Preferences σ) (T : RecordType) (c : Config)
    (s : σ) (h : (Config.read P T c s).1 = false) : (Config.read P T c s).2.1.valid = true := by
  rw [Config.read_false_obj P T c s h]
  rfl

/-- Witness of C9 as amended: a stored blob of the right length with a wrong checksum. -/
theorem valid_true_after_failed_read_witness :
    (Config.read (memPrefs true true true) ⟨[1, 1]⟩ (Config.new ⟨[1, 1]⟩ "main")
      (MemStore.put MemStore.empty "main" "config" [2, 0, 0, 0])).1 = false ∧
    (Config.read (memPrefs true true true) ⟨[1, 1]⟩ (Config.new ⟨[1, 1]⟩ "main")
      (MemStore.put MemStore.empty "main" "config" [2, 0, 0, 0])).2.1.valid = true :=
  ⟨by decide, valid_true_after_failed_read (memPrefs true true true) ⟨[1, 1]⟩
    (Config.new ⟨[1, 1]⟩ "main") (MemStore.put MemStore.empty "main" "config" [2, 0, 0, 0])
    (by decide)⟩

/-- C9 as stated fails: with a namespace that cannot be opened, `read()` returns `false` and
`valid()` is true afterwards, not false. -/
theorem valid_not_false_after_failed_read :
    (Config.read (memPrefs false false true) ⟨[1, 1]⟩ (Config.new ⟨[1, 1]⟩ "main")
      MemStore.empty).1 = false ∧
    (Config.read (memPrefs false false true) ⟨[1, 1]⟩ (Config.new ⟨[1, 1]⟩ "main")
      MemStore.empty).2.1.valid ≠ false := by
  decide

/-- C10 (absent key). When the length reported for the key `"config"` is 0, `read()` on a
`Config` in any prior in-memory state returns `false`, leaves `data` equal to the
default-constructed `T`, and leaves `valid()` true. -/
theorem read_absent_key {σ : Type} (P : Preferences σ) (T : RecordType) (c : Config) (s : σ)
    (h : P.getBytesLength c._name configKey (P.begin c._name true s).2 = 0) :
    (Config.read P T c s).1 = false ∧
    (Config.read P T c s).2.1.data = T.defaultBytes ∧
    (Config.read P T c s).2.1.valid = true := by
  have hne : P.getBytesLength c._name configKey (P.begin c._name true s).2 ≠ T.sizeofT + 2 := by
    rw [h]
    exact (Nat.succ_ne_zero _).symm
  obtain ⟨h1, h2⟩ := Config.read_of_length_ne P T c s hne
  exact ⟨h1, by rw [h2]; rfl, by rw [h2]; rfl⟩

/-- Witness of C10: the empty in-memory store, and a `Config` holding other data than the
default and flagged valid. -/
theorem read_absent_key_witness :
    (Config.read (memPrefs true true true) ⟨[1, 1]⟩
      { data := [9, 9], _valid := true, _name := "main" } MemStore.empty).1 = false ∧
    (Config.read (memPrefs true true true) ⟨[1, 1]⟩
      { data := [9, 9], _valid := true, _name := "main" } MemStore.empty).2.1.data = [1, 1] ∧
    (Config.read (memPrefs true true true) ⟨[1, 1]⟩
      { data := [9, 9], _valid := true, _name := "main" } MemStore.empty).2.1.valid = true :=
  read_absent_key (memPrefs true true true) ⟨[1, 1]⟩
    { data := [9, 9], _valid := true, _name := "main" } MemStore.empty rfl

/-! ## Lemmas on the store after each operation -/

theorem Config.write_store_of_not_open {σ : Type} (P : Preferences σ) (c : Config) (s : σ)
    (h : (P.begin c._name false s).1 = false) :
    (Config.write P c s).2.2 = (P.begin c._name false s).2 := by
  unfold Config.write
  rcases hb : P.begin c._name false s with ⟨ok, s1⟩
  rw [hb] at h
  cases ok
  · rfl
  · cases h

theorem Config.writeDefaults_store {σ : Type} (P : Preferences σ) (T : RecordType) (c : Config)
    (s : σ) :
    (Config.writeDefaults P T c s).2 =
      (Config.write P { data := T.defaultBytes, _valid := c._valid, _name := c._name } s).2.2 := by
  unfold Config.writeDefaults
  rfl

/-- On a faithful backend whose namespace opens read-write, `writeDefaults()` puts the encoded
default record under the key `"config"` and changes nothing else. -/
theorem Config.writeDefaults_contents {σ : Type} {P : Preferences σ}
    {contents : σ → String → String → Option (List Nat)} (hf : Faithful P contents)
    (T : RecordType) (c : Config) (s : σ) (ho : (P.begin c._name false s).1 = true) :
    contents (Config.writeDefaults P T c s).2 =
      fun n k => if n = c._name ∧ k = configKey then some (writeBuffer T.defaultBytes)
        else contents s n k := by
  rw [Config.writeDefaults_store,
    Config.write_store P { data := T.defaultBytes, _valid := c._valid, _name := c._name } s ho,
    hf.end_contents, hf.put_contents, hf.begin_contents]

/-- The store left by a `read()` that returns `true`: the namespace was opened and closed. -/
theorem Config.read_true_store {σ : Type} (P : Preferences σ) (T : RecordType) (c : Config)
    (s : σ) (h : (Config.read P T c s).1 = true) :
    (Config.read P T c s).2.2 = P.end_ c._name (P.begin c._name true s).2 := by
  revert h
  unfold Config.read
  simp only
  split
  · intro h; cases h
  · next s1 hb =>
    rw [hb]
    split
    · intro h; cases h
    · split
      · intro h; cases h
      · intro _; rfl

/-- On a faithful backend whose namespace opens read-write, a `read()` that returns `false`
leaves the encoded default record under the key `"config"` and changes nothing else. -/
theorem Config.read_false_contents {σ : Type} {P : Preferences σ}
    {contents : σ → String → String → Option (List Nat)} (hf : Faithful P contents)
    (T : RecordType) (c : Config) (s : σ) (ho : ∀ s1, (P.begin c._name false s1).1 = true)
    (h : (Config.read P T c s).1 = false) :
    contents (Config.read P T c s).2.2 =
      fun n k => if n = c._name ∧ k = configKey then some (writeBuffer T.defaultBytes)
        else contents s n k := by
  have hw : ∀ s1, contents
      (Config.writeDefaults P T { data := c.data, _valid := false, _name := c._name } s1).2 =
      fun n k => if n = c._name ∧ k = configKey then some (writeBuffer T.defaultBytes)
        else contents s1 n k :=
    fun s1 => Config.writeDefaults_contents hf T
      { data := c.data, _valid := false, _name := c._name } s1 (ho s1)
  revert h
  unfold Config.read
  simp only
  split
  · next s1 hb =>
    intro _
    have hc := hf.begin_contents c._name true s
    rw [hb] at hc
    simp only at hc
    simp only [hw, hc]
  · next s1 hb =>
    have hc := hf.begin_contents c._name true s
    rw [hb] at hc
    simp only at hc
    split
    · intro _
      simp only [hf.end_contents, hw, hc]
    · split
      · intro _
        simp only [hw, hf.end_contents, hc]
      · intro h; cases h

theorem Config.deleteConfig_obj {σ : Type} (P : Preferences σ) (c : Config) (s : σ) :
    (Config.deleteConfig P c s).1 = c := by
  unfold Config.deleteConfig
  rcases P.begin c._name false s with ⟨ok, s1⟩
  cases ok <;> rfl

theorem Config.deleteConfig_store {σ : Type} (P : Preferences σ) (c : Config) (s : σ)
    (h : (P.begin c._name false s).1 = true) :
    (Config.deleteConfig P c s).2 = P.end_ c._name (P.clear c._name (P.begin c._name false s).2) := by
  unfold Config.deleteConfig
  rcases hb : P.begin c._name false s with ⟨ok, s1⟩
  rw [hb] at h
  cases ok
  · cases h
  · rfl

/-- The store left by a `read()` that could not open the namespace. -/
theorem Config.read_store_of_not_open {σ : Type} (P : Preferences σ) (T : RecordType)
    (c : Config) (s : σ) (h : (P.begin c._name true s).1 = false) :
    (Config.read P T c s).2.2 =
      (Config.write P { data := T.defaultBytes, _valid := false, _name := c._name }
        (P.begin c._name true s).2).2.2 := by
  unfold Config.read
  simp only
  split
  · next s1 hb =>
    rw [hb, Config.writeDefaults_store]
  · next s1 hb =>
    rw [hb] at h
    cases h

/-! ## The claims, continued -/

/-- C11 (storage unavailable on load). When neither the read-only open of `read()` nor the
read-write open of `write()` succeeds, `read()` returns `false`, `data` equals the
default-constructed `T`, `valid()` is true, and the contents of the backing store (which opening
does not change) are as before. -/
theorem read_when_store_unavailable {σ : Type} (P : Preferences σ)
    (contents : σ → String → String → Option (List Nat)) (T : RecordType) (c : Config) (s : σ)
    (hro : (P.begin c._name true s).1 = false)
    (hrw : (P.begin c._name false (P.begin c._name true s).2).1 = false)
    (hb : ∀ name readOnly s1, contents (P.begin name readOnly s1).2 = contents s1) :
    (Config.read P T c s).1 = false ∧
    (Config.read P T c s).2.1.data = T.defaultBytes ∧
    (Config.read P T c s).2.1.valid = true ∧
    contents (Config.read P T c s).2.2 = contents s := by
  obtain ⟨h1, h2⟩ := Config.read_of_not_open P T c s hro
  refine ⟨h1, by rw [h2]; rfl, by rw [h2]; rfl, ?_⟩
  rw [Config.read_store_of_not_open P T c s hro,
    Config.write_store_of_not_open P
      { data := T.defaultBytes, _valid := false, _name := c._name } _ hrw, hb, hb]

/-- Witness of C11: an in-memory store that holds an acceptable blob but cannot be opened. -/
theorem read_when_store_unavailable_witness :
    (Config.read (memPrefs false false true) ⟨[1, 1]⟩
      { data := [9, 9], _valid := false, _name := "main" }
      (MemStore.put MemStore.empty "main" "config" [3, 1, 0xC0, 0x80])).1 = false ∧
    (Config.read (memPrefs false false true) ⟨[1, 1]⟩
      { data := [9, 9], _valid := false, _name := "main" }
      (MemStore.put MemStore.empty "main" "config" [3, 1, 0xC0, 0x80])).2.1.data = [1, 1] ∧
    (Config.read (memPrefs false false true) ⟨[1, 1]⟩
      { data := [9, 9], _valid := false, _name := "main" }
      (MemStore.put MemStore.empty "main" "config" [3, 1, 0xC0, 0x80])).2.1.valid = true ∧
    (Config.read (memPrefs false false true) ⟨[1, 1]⟩
      { data := [9, 9], _valid := false, _name := "main" }
      (MemStore.put MemStore.empty "main" "config" [3, 1, 0xC0, 0x80])).2.2
      = MemStore.put MemStore.empty "main" "config" [3, 1, 0xC0, 0x80] :=
  read_when_store_unavailable (memPrefs false false true) (fun s => s) ⟨[1, 1]⟩
    { data := [9, 9], _valid := false, _name := "main" }
    (MemStore.put MemStore.empty "main" "config" [3, 1, 0xC0, 0x80]) rfl rfl (fun _ _ _ => rfl)

/-- C12 (save failure leaves the state alone). If the namespace cannot be opened read-write,
`write()` returns `false` and leaves the object (`data`, `valid`) and the contents of the backing
store (which opening does not change) as they were; and on every backend and every path `write()`
leaves `data` and `valid` unchanged. -/
theorem write_failure_leaves_state {σ : Type} (P : Preferences σ)
    (contents : σ → String → String → Option (List Nat)) (c : Config) (s : σ)
    (h : (P.begin c._name false s).1 = false)
    (hb : ∀ name readOnly s1, contents (P.begin name readOnly s1).2 = contents s1) :
    (Config.write P c s).1 = false ∧
    (Config.write P c s).2.1 = c ∧
    contents (Config.write P c s).2.2 = contents s ∧
    ∀ {τ : Type} (Q : Preferences τ) (c1 : Config) (t : τ),
      (Config.write Q c1 t).2.1.data = c1.data ∧
      (Config.write Q c1 t).2.1.valid = c1.valid := by
  refine ⟨?_, Config.write_obj P c s, ?_, ?_⟩
  · rw [Config.write_flag, h]
  · rw [Config.write_store_of_not_open P c s h, hb]
  · intro τ Q c1 t
    rw [Config.write_obj]
    exact ⟨rfl, rfl⟩

/-- Witness of C12: a `Config` holding `[2, 0]` on an in-memory store that opens read-only at
most. -/
theorem write_failure_leaves_state_witness :
    (Config.write (memPrefs true false true) { data := [2, 0], _valid := true, _name := "main" }
      (MemStore.put MemStore.empty "main" "config" [3, 1, 0xC0, 0x80])).1 = false ∧
    (Config.write (memPrefs true false true) { data := [2, 0], _valid := true, _name := "main" }
      (MemStore.put MemStore.empty "main" "config" [3, 1, 0xC0, 0x80])).2.1
      = { data := [2, 0], _valid := true, _name := "main" } ∧
    (Config.write (memPrefs true false true) { data := [2, 0], _valid := true, _name := "main" }
      (MemStore.put MemStore.empty "main" "config" [3, 1, 0xC0, 0x80])).2.2
      = MemStore.put MemStore.empty "main" "config" [3, 1, 0xC0, 0x80] ∧
    ∀ {τ : Type} (Q : Preferences τ) (c1 : Config) (t : τ),
      (Config.write Q c1 t).2.1.data = c1.data ∧
      (Config.write Q c1 t).2.1.valid = c1.valid :=
  write_failure_leaves_state (memPrefs true false true) (fun s => s)
    { data := [2, 0], _valid := true, _name := "main" }
    (MemStore.put MemStore.empty "main" "config" [3, 1, 0xC0, 0x80]) rfl (fun _ _ _ => rfl)

/-- On a faithful backend, a `read()` that finds nothing under the key `"config"` fails. -/
theorem Config.read_of_no_blob {σ : Type} {P : Preferences σ}
    {contents : σ → String → String → Option (List Nat)} (hf : Faithful P contents)
    (T : RecordType) (c : Config) (s : σ) (hn : contents s c._name configKey = none) :
    (Config.read P T c s).1 = false ∧ (Config.read P T c s).2.1 = resetObj T c := by
  apply Config.read_of_length_ne
  rw [hf.length_contents, hf.begin_contents, hn]
  exact (Nat.succ_ne_zero _).symm

/-- On a faithful backend, a `read()` that returns `true` has been served a blob of the expected
length, held under the key `"config"`, whose stored checksum matches. -/
theorem Config.read_true_inv {σ : Type} {P : Preferences σ}
    {contents : σ → String → String → Option (List Nat)} (hf : Faithful P contents)
    (T : RecordType) (c : Config) (s : σ) (h : (Config.read P T c s).1 = true) :
    ∃ b, contents s c._name configKey = some b ∧ b.length = T.sizeofT + 2 ∧
      (P.begin c._name true s).1 = true ∧
      u16 (b.getD T.sizeofT 0 ||| (b.getD (T.sizeofT + 1) 0 <<< 8)) = CRC16 (b.take T.sizeofT) ∧
      (Config.read P T c s).2.1 = { data := b.take T.sizeofT, _valid := true, _name := c._name } := by
  have hopen : (P.begin c._name true s).1 = true := by
    by_contra hno
    rw [Bool.not_eq_true] at hno
    rw [(Config.read_of_not_open P T c s hno).1] at h
    cases h
  have hlen : P.getBytesLength c._name configKey (P.begin c._name true s).2 = T.sizeofT + 2 := by
    by_contra hne
    rw [(Config.read_of_length_ne P T c s hne).1] at h
    cases h
  rw [hf.length_contents, hf.begin_contents] at hlen
  cases hc : contents s c._name configKey with
  | none =>
    rw [hc] at hlen
    cases hlen
  | some b =>
    rw [hc] at hlen
    simp only at hlen
    have hs : Serves P c._name s b := hf.serves hopen hc
    have hr := Config.read_of_serves P T c s b hs hlen
    by_cases ht : u16 (b.getD T.sizeofT 0 ||| (b.getD (T.sizeofT + 1) 0 <<< 8))
        = CRC16 (b.take T.sizeofT)
    · exact ⟨b, rfl, hlen, hopen, ht, (hr.1 ht).2.1⟩
    · rw [(hr.2 ht).1] at h
      cases h

/-- C13, as the code has it (erase then load). On a faithful backend whose namespace opens
read-write, `read()`
after `deleteConfig()` returns `false` with the default `T` as `data` and `valid()` true, as
does `read()` by any `Config` of the namespace on a store that holds nothing in the namespace,
and both leave the same contents in the namespace. -/
theorem erase_then_read_like_never_stored {σ : Type} (P : Preferences σ)
    (contents : σ → String → String → Option (List Nat)) (T : RecordType) (c : Config) (s : σ)
    (d0 : List Nat) (v0 : Bool) (s0 : σ)
    (hf : Faithful P contents) (ho : ∀ s1, (P.begin c._name false s1).1 = true)
    (hempty : ∀ k, contents s0 c._name k = none) :
    ((Config.read P T (Config.deleteConfig P c s).1 (Config.deleteConfig P c s).2).1 = false ∧
      (Config.read P T (Config.deleteConfig P c s).1 (Config.deleteConfig P c s).2).2.1.data
        = T.defaultBytes ∧
      (Config.read P T (Config.deleteConfig P c s).1 (Config.deleteConfig P c s).2).2.1.valid
        = true) ∧
    ((Config.read P T { data := d0, _valid := v0, _name := c._name } s0).1 = false ∧
      (Config.read P T { data := d0, _valid := v0, _name := c._name } s0).2.1.data
        = T.defaultBytes ∧
      (Config.read P T { data := d0, _valid := v0, _name := c._name } s0).2.1.valid = true) ∧
    ∀ k,
      contents (Config.read P T (Config.deleteConfig P c s).1 (Config.deleteConfig P c s).2).2.2
          c._name k =
        contents (Config.read P T { data := d0, _valid := v0, _name := c._name } s0).2.2
          c._name k := by
  have hcleared : ∀ k, contents (Config.deleteConfig P c s).2 c._name k = none := by
    intro k
    rw [Config.deleteConfig_store P c s (ho s), hf.end_contents, hf.clear_contents]
    simp
  rw [Config.deleteConfig_obj]
  obtain ⟨a1, a2⟩ := Config.read_of_no_blob hf T c (Config.deleteConfig P c s).2
    (hcleared configKey)
  obtain ⟨b1, b2⟩ := Config.read_of_no_blob hf T { data := d0, _valid := v0, _name := c._name }
    s0 (hempty configKey)
  refine ⟨⟨a1, by rw [a2]; rfl, by rw [a2]; rfl⟩, ⟨b1, by rw [b2]; rfl, by rw [b2]; rfl⟩, ?_⟩
  intro k
  rw [Config.read_false_contents hf T c _ ho a1,
    Config.read_false_contents hf T { data := d0, _valid := v0, _name := c._name } s0 ho b1]
  simp only [hcleared, hempty]

/-- Witness of C13: a namespace holding an acceptable blob and another key is erased and read;
the comparison is with the empty in-memory store. -/
theorem erase_then_read_like_never_stored_witness :
    ((Config.read (memPrefs true true true) ⟨[1, 1]⟩
        (Config.deleteConfig (memPrefs true true true)
          { data := [3, 1], _valid := true, _name := "main" }
          (MemStore.put (MemStore.put MemStore.empty "main" "other" [5]) "main" "config"
            [3, 1, 0xC0, 0x80])).1
        (Config.deleteConfig (memPrefs true true true)
          { data := [3, 1], _valid := true, _name := "main" }
          (MemStore.put (MemStore.put MemStore.empty "main" "other" [5]) "main" "config"
            [3, 1, 0xC0, 0x80])).2).1 = false ∧
      (Config.read (memPrefs true true true) ⟨[1, 1]⟩
        (Config.deleteConfig (memPrefs true true true)
          { data := [3, 1], _valid := true, _name := "main" }
          (MemStore.put (MemStore.put MemStore.empty "main" "other" [5]) "main" "config"
            [3, 1, 0xC0, 0x80])).1
        (Config.deleteConfig (memPrefs true true true)
          { data := [3, 1], _valid := true, _name := "main" }
          (MemStore.put (MemStore.put MemStore.empty "main" "other" [5]) "main" "config"
            [3, 1, 0xC0, 0x80])).2).2.1.data = [1, 1] ∧
      (Config.read (memPrefs true true true) ⟨[1, 1]⟩
        (Config.deleteConfig (memPrefs true true true)
          { data := [3, 1], _valid := true, _name := "main" }
          (MemStore.put (MemStore.put MemStore.empty "main" "other" [5]) "main" "config"
            [3, 1, 0xC0, 0x80])).1
        (Config.deleteConfig (memPrefs true true true)
          { data := [3, 1], _valid := true, _name := "main" }
          (MemStore.put (MemStore.put MemStore.empty "main" "other" [5]) "main" "config"
            [3, 1, 0xC0, 0x80])).2).2.1.valid = true) ∧
    ((Config.read (memPrefs true true true) ⟨[1, 1]⟩
        { data := [9, 9], _valid := false, _name := "main" } MemStore.empty).1 = false ∧
      (Config.read (memPrefs true true true) ⟨[1, 1]⟩
        { data := [9, 9], _valid := false, _name := "main" } MemStore.empty).2.1.data = [1, 1] ∧
      (Config.read (memPrefs true true true) ⟨[1, 1]⟩
        { data := [9, 9], _valid := false, _name := "main" } MemStore.empty).2.1.valid = true) ∧
    ∀ k,
      (Config.read (memPrefs true true true) ⟨[1, 1]⟩
        (Config.deleteConfig (memPrefs true true true)
          { data := [3, 1], _valid := true, _name := "main" }
          (MemStore.put (MemStore.put MemStore.empty "main" "other" [5]) "main" "config"
            [3, 1, 0xC0, 0x80])).1
        (Config.deleteConfig (memPrefs true true true)
          { data := [3, 1], _valid := true, _name := "main" }
          (MemStore.put (MemStore.put MemStore.empty "main" "other" [5]) "main" "config"
            [3, 1, 0xC0, 0x80])).2).2.2 "main" k =
      (Config.read (memPrefs true true true) ⟨[1, 1]⟩
        { data := [9, 9], _valid := false, _name := "main" } MemStore.empty).2.2 "main" k :=
  erase_then_read_like_never_stored (memPrefs true true true) (fun s => s) ⟨[1, 1]⟩
    { data := [3, 1], _valid := true, _name := "main" }
    (MemStore.put (MemStore.put MemStore.empty "main" "other" [5]) "main" "config"
      [3, 1, 0xC0, 0x80])
    [9, 9] false MemStore.empty (memPrefs_faithful true true) (fun _ => rfl) (fun _ => rfl)

/-- C13 as stated fails: on a faithful in-memory store whose namespace opens read-only but not
read-write, `deleteConfig()` returns without clearing, so the following `read()` returns `true`
with the stored data `[3, 1]` and leaves the blob in place, whereas `read()` on the store that
holds nothing returns `false` with the default data `[1, 1]` and leaves nothing under
`"config"`. -/
theorem erase_without_open_then_read_differs :
    ((Config.read (memPrefs true false true) ⟨[1, 1]⟩
        (Config.deleteConfig (memPrefs true false true) (Config.new ⟨[1, 1]⟩ "main")
          (MemStore.put MemStore.empty "main" "config" [3, 1, 0xC0, 0x80])).1
        (Config.deleteConfig (memPrefs true false true) (Config.new ⟨[1, 1]⟩ "main")
          (MemStore.put MemStore.empty "main" "config" [3, 1, 0xC0, 0x80])).2).1 = true ∧
      (Config.read (memPrefs true false true) ⟨[1, 1]⟩
        (Config.deleteConfig (memPrefs true false true) (Config.new ⟨[1, 1]⟩ "main")
          (MemStore.put MemStore.empty "main" "config" [3, 1, 0xC0, 0x80])).1
        (Config.deleteConfig (memPrefs true false true) (Config.new ⟨[1, 1]⟩ "main")
          (MemStore.put MemStore.empty "main" "config" [3, 1, 0xC0, 0x80])).2).2.1.data = [3, 1] ∧
      (Config.read (memPrefs true false true) ⟨[1, 1]⟩
        (Config.deleteConfig (memPrefs true false true) (Config.new ⟨[1, 1]⟩ "main")
          (MemStore.put MemStore.empty "main" "config" [3, 1, 0xC0, 0x80])).1
        (Config.deleteConfig (memPrefs true false true) (Config.new ⟨[1, 1]⟩ "main")
          (MemStore.put MemStore.empty "main" "config" [3, 1, 0xC0, 0x80])).2).2.2
        "main" "config" = some [3, 1, 0xC0, 0x80]) ∧
    ((Config.read (memPrefs true false true) ⟨[1, 1]⟩ (Config.new ⟨[1, 1]⟩ "main")
        MemStore.empty).1 = false ∧
      (Config.read (memPrefs true false true) ⟨[1, 1]⟩ (Config.new ⟨[1, 1]⟩ "main")
        MemStore.empty).2.1.data = [1, 1] ∧
      (Config.read (memPrefs true false true) ⟨[1, 1]⟩ (Config.new ⟨[1, 1]⟩ "main")
        MemStore.empty).2.2 "main" "config" = none) := by
  decide

/-- C14, as the code has it (default-reset idempotence). On every backend, after one call to
`writeDefaults()` `data` equals the default-constructed `T` and `valid()` is true, and after a
second call `data` is unchanged and `valid()` is still true; and when the backend stores bytes
faithfully and the namespace opens read-write, the backing store holds the same contents after
the second call as after the first. -/
theorem writeDefaults_twice {σ : Type} (P : Preferences σ)
    (contents : σ → String → String → Option (List Nat)) (T : RecordType) (c : Config) (s : σ)
    (hf : Faithful P contents) (ho : ∀ s1, (P.begin c._name false s1).1 = true) :
    (∀ {τ : Type} (Q : Preferences τ) (c1 : Config) (t : τ),
      (Config.writeDefaults Q T c1 t).1.data = T.defaultBytes ∧
      (Config.writeDefaults Q T c1 t).1.valid = true ∧
      (Config.writeDefaults Q T (Config.writeDefaults Q T c1 t).1
        (Config.writeDefaults Q T c1 t).2).1.data = (Config.writeDefaults Q T c1 t).1.data ∧
      (Config.writeDefaults Q T (Config.writeDefaults Q T c1 t).1
        (Config.writeDefaults Q T c1 t).2).1.valid = true) ∧
    contents (Config.writeDefaults P T (Config.writeDefaults P T c s).1
        (Config.writeDefaults P T c s).2).2 =
      contents (Config.writeDefaults P T c s).2 := by
  constructor
  · intro τ Q c1 t
    simp only [Config.writeDefaults_obj]
    exact ⟨rfl, rfl, rfl, rfl⟩
  · have hn : (Config.writeDefaults P T c s).1._name = c._name := by
      rw [Config.writeDefaults_obj]; rfl
    rw [Config.writeDefaults_contents hf T (Config.writeDefaults P T c s).1 _ (by rw [hn]; exact ho _),
      Config.writeDefaults_contents hf T c s (ho s), hn]
    funext n k
    by_cases hk : n = c._name ∧ k = configKey
    · simp only [hk, and_self, if_true]
    · simp only [hk, if_false]

/-- Witness of C14 as amended: two calls on the in-memory store, from a `Config` holding other
data than the default. -/
theorem writeDefaults_twice_witness :
    (∀ {τ : Type} (Q : Preferences τ) (c1 : Config) (t : τ),
      (Config.writeDefaults Q ⟨[1, 1]⟩ c1 t).1.data = [1, 1] ∧
      (Config.writeDefaults Q ⟨[1, 1]⟩ c1 t).1.valid = true ∧
      (Config.writeDefaults Q ⟨[1, 1]⟩ (Config.writeDefaults Q ⟨[1, 1]⟩ c1 t).1
        (Config.writeDefaults Q ⟨[1, 1]⟩ c1 t).2).1.data
        = (Config.writeDefaults Q ⟨[1, 1]⟩ c1 t).1.data ∧
      (Config.writeDefaults Q ⟨[1, 1]⟩ (Config.writeDefaults Q ⟨[1, 1]⟩ c1 t).1
        (Config.writeDefaults Q ⟨[1, 1]⟩ c1 t).2).1.valid = true) ∧
    (Config.writeDefaults (memPrefs true true true) ⟨[1, 1]⟩
        (Config.writeDefaults (memPrefs true true true) ⟨[1, 1]⟩
          { data := [9, 9], _valid := false, _name := "main" } MemStore.empty).1
        (Config.writeDefaults (memPrefs true true true) ⟨[1, 1]⟩
          { data := [9, 9], _valid := false, _name := "main" } MemStore.empty).2).2 =
      (Config.writeDefaults (memPrefs true true true) ⟨[1, 1]⟩
        { data := [9, 9], _valid := false, _name := "main" } MemStore.empty).2 :=
  writeDefaults_twice (memPrefs true true true) (fun s => s) ⟨[1, 1]⟩
    { data := [9, 9], _valid := false, _name := "main" } MemStore.empty
    (memPrefs_faithful true true) (fun _ => rfl)

/-- C14 as stated fails for some backend behaviour: on a backend whose `putBytes` fails once,
the first `writeDefaults()` leaves nothing under `"config"` and the second one leaves the
encoded default record there. -/
theorem writeDefaults_twice_store_differs :
    (Config.writeDefaults flakyPrefs ⟨[1, 1]⟩ { data := [9, 9], _valid := false, _name := "main" }
      (true, MemStore.empty)).2.2 "main" "config" = none ∧
    (Config.writeDefaults flakyPrefs ⟨[1, 1]⟩
      (Config.writeDefaults flakyPrefs ⟨[1, 1]⟩
        { data := [9, 9], _valid := false, _name := "main" } (true, MemStore.empty)).1
      (Config.writeDefaults flakyPrefs ⟨[1, 1]⟩
        { data := [9, 9], _valid := false, _name := "main" } (true, MemStore.empty)).2).2.2
      "main" "config" = some [1, 1, 0xC1, 0xE0] := by
  decide

/-- C15 (erase frame). On every backend, whether the open succeeds or fails, `deleteConfig()`
leaves the object (`data`, `valid`) as it was; and when the open succeeds on a faithful backend,
the namespace holds no key afterwards. -/
theorem deleteConfig_frame {σ : Type} (P : Preferences σ)
    (contents : σ → String → String → Option (List Nat)) (c : Config) (s : σ)
    (hf : Faithful P contents) (ho : (P.begin c._name false s).1 = true) :
    (∀ {τ : Type} (Q : Preferences τ) (c1 : Config) (t : τ),
      (Config.deleteConfig Q c1 t).1.data = c1.data ∧
      (Config.deleteConfig Q c1 t).1.valid = c1.valid) ∧
    ∀ k, contents (Config.deleteConfig P c s).2 c._name k = none := by
  constructor
  · intro τ Q c1 t
    rw [Config.deleteConfig_obj]
    exact ⟨rfl, rfl⟩
  · intro k
    rw [Config.deleteConfig_store P c s ho, hf.end_contents, hf.clear_contents]
    simp

/-- Witness of C15: a namespace of the in-memory store holding two keys is erased. -/
theorem deleteConfig_frame_witness :
    (∀ {τ : Type} (Q : Preferences τ) (c1 : Config) (t : τ),
      (Config.deleteConfig Q c1 t).1.data = c1.data ∧
      (Config.deleteConfig Q c1 t).1.valid = c1.valid) ∧
    ∀ k, (Config.deleteConfig (memPrefs true true true)
      { data := [3, 1], _valid := true, _name := "main" }
      (MemStore.put (MemStore.put MemStore.empty "main" "other" [5]) "main" "config"
        [3, 1, 0xC0, 0x80])).2 "main" k = none :=
  deleteConfig_frame (memPrefs true true true) (fun s => s)
    { data := [3, 1], _valid := true, _name := "main" }
    (MemStore.put (MemStore.put MemStore.empty "main" "other" [5]) "main" "config"
      [3, 1, 0xC0, 0x80]) (memPrefs_faithful true true) rfl

/-- After `read()` the flag `_valid` is set, on every path. -/
theorem Config.read_valid {σ : Type} (P : Preferences σ) (T : RecordType) (c : Config) (s : σ) :
    (Config.read P T c s).2.1._valid = true := by
  cases h : (Config.read P T c s).1 with
  | false =>
    rw [Config.read_false_obj P T c s h]
    rfl
  | true =>
    revert h
    unfold Config.read
    simp only
    split
    · intro h; cases h
    · split
      · intro h; cases h
      · split
        · intro h; cases h
        · intro _; rfl

/-- The flag `_valid` after one caller action. -/
theorem Config.step_valid {σ : Type} (P : Preferences σ) (T : RecordType) (op : Op)
    (x : Config × σ) :
    (Config.step P T op x).1._valid =
      if op = Op.read ∨ op = Op.writeDefaults then true else x.1._valid := by
  cases op with
  | read => simp [Config.step, Config.read_valid]
  | write => simp [Config.step, Config.write_obj]
  | writeDefaults => simp [Config.step, Config.writeDefaults_obj, resetObj]
  | deleteConfig => simp [Config.step, Config.deleteConfig_obj]
  | setData d => simp [Config.step]

theorem Config.run_valid {σ : Type} (P : Preferences σ) (T : RecordType) :
    ∀ (ops : List Op) (x : Config × σ),
      (Config.run P T ops x).1._valid = false ↔
        x.1._valid = false ∧ ∀ op ∈ ops, op ≠ Op.read ∧ op ≠ Op.writeDefaults
  | [], x => by simp [Config.run]
  | op :: rest, x => by
    rw [Config.run, Config.run_valid P T rest, Config.step_valid]
    by_cases h : op = Op.read ∨ op = Op.writeDefaults
    · rw [if_pos h]
      constructor
      · intro h1
        cases h1.1
      · intro h1
        have := h1.2 op (List.mem_cons_self _ _)
        rcases h with h | h
        · exact absurd h this.1
        · exact absurd h this.2
    · rw [if_neg h]
      have h' : op ≠ Op.read ∧ op ≠ Op.writeDefaults := by
        constructor
        · intro e; exact h (Or.inl e)
        · intro e; exact h (Or.inr e)
      constructor
      · rintro ⟨h1, h2⟩
        refine ⟨h1, ?_⟩
        intro o ho
        rcases List.mem_cons.mp ho with e | e
        · rw [e]; exact h'
        · exact h2 o e
      · rintro ⟨h1, h2⟩
        exact ⟨h1, fun o ho => h2 o (List.mem_cons_of_mem _ ho)⟩

/-- C17 (`valid()` does not tell a verified load from a fallback). On every backend and from
every state, `valid()` is true after `read()` returns, whatever `read()` returned; `valid()` is
false after construction, and after any sequence of caller actions on a freshly constructed
`Config` it is false exactly when the sequence contains neither `read()` nor
`writeDefaults()`. -/
theorem valid_true_after_every_read {σ : Type} (P : Preferences σ) (T : RecordType) :
    (∀ (c : Config) (s : σ), (Config.read P T c s).2.1.valid = true) ∧
    (∀ name : String, (Config.new T name).valid = false) ∧
    ∀ (ops : List Op) (name : String) (s : σ),
      (Config.run P T ops (Config.new T name, s)).1.valid = false ↔
        ∀ op ∈ ops, op ≠ Op.read ∧ op ≠ Op.writeDefaults := by
  refine ⟨fun c s => Config.read_valid P T c s, fun _ => rfl, ?_⟩
  intro ops name s
  have := Config.run_valid P T ops (Config.new T name, s)
  unfold Config.valid
  rw [this]
  constructor
  · exact fun h => h.2
  · exact fun h => ⟨rfl, h⟩

/-- C18 (self-healing fallback). On a faithful backend whose namespace opens, whenever `read()`
returns `false` the namespace afterwards holds under `"config"` the default record followed by
its little-endian CRC16, which is not what it held before, and a following `read()` by any
`Config` of the namespace returns `true` with `data` equal to the default `T`. -/
theorem failed_read_self_heals {σ : Type} (P : Preferences σ)
    (contents : σ → String → String → Option (List Nat)) (T : RecordType) (c : Config) (s : σ)
    (d1 : List Nat) (v1 : Bool)
    (hf : Faithful P contents) (ho : Opens P c._name) (h : (Config.read P T c s).1 = false) :
    contents (Config.read P T c s).2.2 c._name "config" =
      some (T.defaultBytes ++
        [CRC16 T.defaultBytes &&& 0xFF, (CRC16 T.defaultBytes >>> 8) &&& 0xFF]) ∧
    contents (Config.read P T c s).2.2 c._name "config" ≠ contents s c._name "config" ∧
    (Config.read P T { data := d1, _valid := v1, _name := c._name }
      (Config.read P T c s).2.2).1 = true ∧
    (Config.read P T { data := d1, _valid := v1, _name := c._name }
      (Config.read P T c s).2.2).2.1.data = T.defaultBytes := by
  have hc : contents (Config.read P T c s).2.2 c._name configKey
      = some (writeBuffer T.defaultBytes) := by
    rw [Config.read_false_contents hf T c s (fun s1 => ho false s1) h]
    simp
  have hl : (writeBuffer T.defaultBytes).length = T.sizeofT + 2 := writeBuffer_length _
  have hcrc : u16 ((writeBuffer T.defaultBytes).getD T.sizeofT 0 |||
      ((writeBuffer T.defaultBytes).getD (T.sizeofT + 1) 0 <<< 8))
      = CRC16 ((writeBuffer T.defaultBytes).take T.sizeofT) := by
    unfold RecordType.sizeofT
    rw [writeBuffer_take]
    exact blob_savedCRC T.defaultBytes (CRC16_lt _)
  have hacc : ∀ (c2 : Config) (s2 : σ), c2._name = c._name →
      contents s2 c._name configKey = some (writeBuffer T.defaultBytes) →
      (Config.read P T c2 s2).1 = true ∧ (Config.read P T c2 s2).2.1.data = T.defaultBytes := by
    intro c2 s2 hn hc2
    have hs : Serves P c2._name s2 (writeBuffer T.defaultBytes) := by
      rw [hn]; exact hf.serves (ho true s2) hc2
    obtain ⟨h1, h2, _⟩ := (Config.read_of_serves P T c2 s2 _ hs hl).1 hcrc
    refine ⟨h1, ?_⟩
    rw [h2]
    exact writeBuffer_take T.defaultBytes
  refine ⟨hc, ?_, hacc _ _ rfl hc⟩
  intro e
  have hold : contents s c._name configKey = some (writeBuffer T.defaultBytes) := by
    rw [← hc]; exact e.symm
  rw [(hacc c s rfl hold).1] at h
  cases h

/-- Witness of C18: a blob of the right length with a wrong checksum in the in-memory store. -/
theorem failed_read_self_heals_witness :
    (Config.read (memPrefs true true true) ⟨[1, 1]⟩ (Config.new ⟨[1, 1]⟩ "main")
      (MemStore.put MemStore.empty "main" "config" [2, 0, 0, 0])).2.2 "main" "config" =
      some ([1, 1] ++ [CRC16 [1, 1] &&& 0xFF, (CRC16 [1, 1] >>> 8) &&& 0xFF]) ∧
    (Config.read (memPrefs true true true) ⟨[1, 1]⟩ (Config.new ⟨[1, 1]⟩ "main")
      (MemStore.put MemStore.empty "main" "config" [2, 0, 0, 0])).2.2 "main" "config" ≠
      MemStore.put MemStore.empty "main" "config" [2, 0, 0, 0] "main" "config" ∧
    (Config.read (memPrefs true true true) ⟨[1, 1]⟩
      { data := [9, 9], _valid := false, _name := "main" }
      (Config.read (memPrefs true true true) ⟨[1, 1]⟩ (Config.new ⟨[1, 1]⟩ "main")
        (MemStore.put MemStore.empty "main" "config" [2, 0, 0, 0])).2.2).1 = true ∧
    (Config.read (memPrefs true true true) ⟨[1, 1]⟩
      { data := [9, 9], _valid := false, _name := "main" }
      (Config.read (memPrefs true true true) ⟨[1, 1]⟩ (Config.new ⟨[1, 1]⟩ "main")
        (MemStore.put MemStore.empty "main" "config" [2, 0, 0, 0])).2.2).2.1.data = [1, 1] :=
  failed_read_self_heals (memPrefs true true true) (fun s => s) ⟨[1, 1]⟩
    (Config.new ⟨[1, 1]⟩ "main") (MemStore.put MemStore.empty "main" "config" [2, 0, 0, 0])
    [9, 9] false (memPrefs_faithful true true) (memPrefs_opens true "main") (by decide)

/-- C19 (a successful load is read-only). On a faithful backend, whenever `read()` returns
`true` the contents of the backing store are the same after the call as before, and a second
`read()` (the namespace opening again) returns `true` with the same `data` and again leaves the
contents as they were. -/
theorem successful_read_is_read_only {σ : Type} (P : Preferences σ)
    (contents : σ → String → String → Option (List Nat)) (T : RecordType) (c : Config) (s : σ)
    (hf : Faithful P contents) (h : (Config.read P T c s).1 = true)
    (hopen : (P.begin c._name true (Config.read P T c s).2.2).1 = true) :
    contents (Config.read P T c s).2.2 = contents s ∧
    (Config.read P T (Config.read P T c s).2.1 (Config.read P T c s).2.2).1 = true ∧
    (Config.read P T (Config.read P T c s).2.1 (Config.read P T c s).2.2).2.1.data
      = (Config.read P T c s).2.1.data ∧
    contents (Config.read P T (Config.read P T c s).2.1 (Config.read P T c s).2.2).2.2
      = contents s := by
  obtain ⟨b, hb, hl, _, hcrc, hobj⟩ := Config.read_true_inv hf T c s h
  have hst : contents (Config.read P T c s).2.2 = contents s := by
    rw [Config.read_true_store P T c s h, hf.end_contents, hf.begin_contents]
  have hn : (Config.read P T c s).2.1._name = c._name := by rw [hobj]
  have hs : Serves P (Config.read P T c s).2.1._name (Config.read P T c s).2.2 b := by
    rw [hn]
    exact hf.serves hopen (by rw [hst]; exact hb)
  obtain ⟨h1, h2, _⟩ :=
    (Config.read_of_serves P T (Config.read P T c s).2.1 (Config.read P T c s).2.2 b hs hl).1 hcrc
  refine ⟨hst, h1, ?_, ?_⟩
  · rw [h2, hobj]
  · rw [Config.read_true_store P T _ _ h1, hf.end_contents, hf.begin_contents, hst]

/-- Witness of C19: the blob `[3, 1, 0xC0, 0x80]` in the in-memory store, read twice. -/
theorem successful_read_is_read_only_witness :
    (Config.read (memPrefs true true true) ⟨[1, 1]⟩ (Config.new ⟨[1, 1]⟩ "main")
      (MemStore.put MemStore.empty "main" "config" [3, 1, 0xC0, 0x80])).2.2
      = MemStore.put MemStore.empty "main" "config" [3, 1, 0xC0, 0x80] ∧
    (Config.read (memPrefs true true true) ⟨[1, 1]⟩
      (Config.read (memPrefs true true true) ⟨[1, 1]⟩ (Config.new ⟨[1, 1]⟩ "main")
        (MemStore.put MemStore.empty "main" "config" [3, 1, 0xC0, 0x80])).2.1
      (Config.read (memPrefs true true true) ⟨[1, 1]⟩ (Config.new ⟨[1, 1]⟩ "main")
        (MemStore.put MemStore.empty "main" "config" [3, 1, 0xC0, 0x80])).2.2).1 = true ∧
    (Config.read (memPrefs true true true) ⟨[1, 1]⟩
      (Config.read (memPrefs true true true) ⟨[1, 1]⟩ (Config.new ⟨[1, 1]⟩ "main")
        (MemStore.put MemStore.empty "main" "config" [3, 1, 0xC0, 0x80])).2.1
      (Config.read (memPrefs true true true) ⟨[1, 1]⟩ (Config.new ⟨[1, 1]⟩ "main")
        (MemStore.put MemStore.empty "main" "config" [3, 1, 0xC0, 0x80])).2.2).2.1.data
      = (Config.read (memPrefs true true true) ⟨[1, 1]⟩ (Config.new ⟨[1, 1]⟩ "main")
        (MemStore.put MemStore.empty "main" "config" [3, 1, 0xC0, 0x80])).2.1.data ∧
    (Config.read (memPrefs true true true) ⟨[1, 1]⟩
      (Config.read (memPrefs true true true) ⟨[1, 1]⟩ (Config.new ⟨[1, 1]⟩ "main")
        (MemStore.put MemStore.empty "main" "config" [3, 1, 0xC0, 0x80])).2.1
      (Config.read (memPrefs true true true) ⟨[1, 1]⟩ (Config.new ⟨[1, 1]⟩ "main")
        (MemStore.put MemStore.empty "main" "config" [3, 1, 0xC0, 0x80])).2.2).2.2
      = MemStore.put MemStore.empty "main" "config" [3, 1, 0xC0, 0x80] :=
  successful_read_is_read_only (memPrefs true true true) (fun s => s) ⟨[1, 1]⟩
    (Config.new ⟨[1, 1]⟩ "main") (MemStore.put MemStore.empty "main" "config" [3, 1, 0xC0, 0x80])
    (memPrefs_faithful true true) (by decide) rfl

/-! ## The checksum of a blob that carries its own checksum -/

/-- Eight rounds (or fewer) on a value whose low bits are all clear only shift it. -/
theorem CRC16.bits_shifted : ∀ (k h : Nat), h * 2 ^ k < 65536 → CRC16.bits k (h * 2 ^ k) = h
  | 0, h, _ => by simp [CRC16.bits]
  | k + 1, h, hlt => by
    have hk : h * 2 ^ k < 65536 := by
      have : h * 2 ^ (k + 1) = 2 * (h * 2 ^ k) := by ring
      omega
    rw [CRC16.bits_succ_of_lt k hlt]
    have hev : h * 2 ^ (k + 1) = 2 * (h * 2 ^ k) := by ring
    have h1 : ¬ (h * 2 ^ (k + 1) % 2 = 1) := by omega
    have h2 : h * 2 ^ (k + 1) / 2 = h * 2 ^ k := by omega
    rw [if_neg h1, h2]
    exact CRC16.bits_shifted k h hk

theorem lor_shift_eq_xor {x : Nat} (y : Nat) (hx : x < 256) :
    x ||| (y <<< 8) = (y * 256) ^^^ x := by
  have h256 : y * 256 = y <<< 8 := by rw [Nat.shiftLeft_eq]
  rw [h256]
  apply Nat.eq_of_testBit_eq
  intro i
  rw [Nat.testBit_or, Nat.testBit_xor, Nat.testBit_shiftLeft]
  by_cases hi : 8 ≤ i
  · have hpow : 2 ^ 8 ≤ 2 ^ i := Nat.pow_le_pow_right (show 2 > 0 by decide) hi
    have hx8 : x < 2 ^ 8 := hx
    have hxi : x.testBit i = false := Nat.testBit_lt_two_pow (Nat.lt_of_lt_of_le hx8 hpow)
    simp [hxi]
  · simp [hi]

/-- From a 16-bit state `c`, two further bytes `x`, `y` bring the checksum to zero exactly when
they are the low and the high byte of `c`. -/
theorem CRC16.loop_pair_eq_zero_iff {c x y : Nat} (hc : c < 65536) (hx : x < 256)
    (hy : y < 256) : CRC16.loop c [x, y] = 0 ↔ c = (y * 256) ^^^ x := by
  have hy16 : y * 256 < 65536 := by omega
  have hsh : CRC16.bits 8 (y * 256) = y := CRC16.bits_shifted 8 y hy16
  have hz : CRC16.bits 8 0 = 0 := by decide
  simp only [CRC16.loop, CRC16.byte]
  rw [u16_of_lt (xor_byte_lt hc hx)]
  constructor
  · intro h
    have hs : CRC16.bits 8 (c ^^^ x) < 65536 := CRC16.bits_lt 8 (xor_byte_lt hc hx)
    rw [u16_of_lt (xor_byte_lt hs hy)] at h
    have h0 : CRC16.bits 8 (c ^^^ x) ^^^ y = 0 :=
      CRC16.bits_inj 8 (xor_byte_lt hs hy) (by decide) (h.trans hz.symm)
    have h1 : CRC16.bits 8 (c ^^^ x) = y := Nat.xor_eq_zero.mp h0
    have h2 : c ^^^ x = y * 256 :=
      CRC16.bits_inj 8 (xor_byte_lt hc hx) hy16 (h1.trans hsh.symm)
    rw [← h2, Nat.xor_cancel_right]
  · intro h
    have h2 : c ^^^ x = y * 256 := by rw [h, Nat.xor_cancel_right]
    rw [h2, hsh, Nat.xor_self]
    exact hz

theorem CRC16_append_pair (d : List Nat) (x y : Nat) :
    CRC16 (d ++ [x, y]) = CRC16.loop (CRC16 d) [x, y] := by
  unfold CRC16
  rw [CRC16.loop_append]

/-- A blob of `n + 2` bytes is its first `n` bytes followed by its last two bytes. -/
theorem blob_split {b : List Nat} {n : Nat} (hl : b.length = n + 2) :
    b = b.take n ++ [b.getD n 0, b.getD (n + 1) 0] := by
  have htl : (b.take n).length = n := by
    rw [List.length_take]; omega
  have hdl : (b.drop n).length = 2 := by
    rw [List.length_drop]; omega
  have hsplit : b = b.take n ++ b.drop n := (List.take_append_drop n b).symm
  rcases hd : b.drop n with _ | ⟨u, _ | ⟨v, _ | ⟨w, rest⟩⟩⟩
  · rw [hd] at hdl; cases hdl
  · rw [hd] at hdl; cases hdl
  · rw [hd] at hsplit
    have hu : b.getD n 0 = u := by
      have := blob_lo (b.take n) u v
      rw [htl, ← hsplit] at this
      exact this
    have hv : b.getD (n + 1) 0 = v := by
      have := blob_hi (b.take n) u v
      rw [htl, ← hsplit] at this
      exact this
    rw [hu, hv]
    exact hsplit
  · rw [hd] at hdl
    simp at hdl

theorem getD_lt_of_isBytes {b : List Nat} (hb : IsBytes b) (i : Nat) : b.getD i 0 < 256 := by
  by_cases hi : i < b.length
  · rw [List.getD_eq_getElem b 0 hi]
    exact hb _ (List.getElem_mem _)
  · rw [List.getD_eq_default b 0 (Nat.le_of_not_lt hi)]
    decide

/-- The checksum test of `read()` on a blob of bytes, in terms of the checksum of the whole
blob. -/
theorem checksum_test_iff_residue {b : List Nat} {n : Nat} (hl : b.length = n + 2)
    (hb : IsBytes b) :
    u16 (b.getD n 0 ||| (b.getD (n + 1) 0 <<< 8)) = CRC16 (b.take n) ↔ CRC16 b = 0 := by
  have hx := getD_lt_of_isBytes hb n
  have hy := getD_lt_of_isBytes hb (n + 1)
  have hv : (b.getD (n + 1) 0 * 256) ^^^ b.getD n 0 < 65536 :=
    Nat.xor_lt_two_pow (n := 16) (by omega) (by omega)
  have hcrc : CRC16 b = CRC16.loop (CRC16 (b.take n)) [b.getD n 0, b.getD (n + 1) 0] := by
    conv => lhs; rw [blob_split hl]
    exact CRC16_append_pair _ _ _
  rw [hcrc, CRC16.loop_pair_eq_zero_iff (CRC16_lt _) hx hy, lor_shift_eq_xor _ hx,
    u16_of_lt hv]
  exact eq_comm

/-- C16 (CRC residue). For every byte sequence `d`, with `c = CRC16 d`, CRC16 of
`d ++ [c & 0xFF, c >> 8]` is `0`; and when the backend serves a blob of `sizeof(T) + 2` bytes,
`read()` accepts it (returns `true`) exactly when CRC16 over the whole blob is `0`. -/
theorem CRC16_residue_zero {σ : Type} (P : Preferences σ) (T : RecordType) (c : Config) (s : σ)
    (b : List Nat) (hs : Serves P c._name s b) (hl : b.length = T.sizeofT + 2)
    (hb : IsBytes b) :
    (∀ d : List Nat, CRC16 (d ++ [CRC16 d &&& 0xFF, CRC16 d >>> 8]) = 0) ∧
    ((Config.read P T c s).1 = true ↔ CRC16 b = 0) := by
  constructor
  · intro d
    have hc := CRC16_lt d
    have hlo : CRC16 d &&& 0xFF < 256 := by
      rw [show (0xFF : Nat) = 2 ^ 8 - 1 from rfl, Nat.and_pow_two_sub_one_eq_mod]
      exact Nat.mod_lt _ (by decide)
    have hhi : CRC16 d >>> 8 < 256 := by
      rw [Nat.shiftRight_eq_div_pow]
      omega
    have hmask : (CRC16 d >>> 8) &&& 0xFF = CRC16 d >>> 8 := by
      rw [show (0xFF : Nat) = 2 ^ 8 - 1 from rfl, Nat.and_pow_two_sub_one_eq_mod]
      exact Nat.mod_eq_of_lt hhi
    have hdec := le16_decode hc
    rw [hmask, lor_shift_eq_xor _ hlo] at hdec
    have hv : (CRC16 d >>> 8 * 256) ^^^ (CRC16 d &&& 0xFF) < 65536 :=
      Nat.xor_lt_two_pow (n := 16) (by omega) (by omega)
    rw [u16_of_lt hv] at hdec
    rw [CRC16_append_pair, CRC16.loop_pair_eq_zero_iff hc hlo hhi]
    exact hdec.symm
  · rw [← checksum_test_iff_residue hl hb]
    have hr := Config.read_of_serves P T c s b hs hl
    constructor
    · intro h
      by_contra hne
      rw [(hr.2 hne).1] at h
      cases h
    · intro h
      exact (hr.1 h).1

/-- Witness of C16: the blob `[3, 1, 0xC0, 0x80]` served by the in-memory store. -/
theorem CRC16_residue_zero_witness :
    (∀ d : List Nat, CRC16 (d ++ [CRC16 d &&& 0xFF, CRC16 d >>> 8]) = 0) ∧
    ((Config.read (memPrefs true true true) ⟨[1, 1]⟩ (Config.new ⟨[1, 1]⟩ "main")
        (MemStore.put MemStore.empty "main" "config" [3, 1, 0xC0, 0x80])).1 = true ↔
      CRC16 [3, 1, 0xC0, 0x80] = 0) :=
  CRC16_residue_zero (memPrefs true true true) ⟨[1, 1]⟩ (Config.new ⟨[1, 1]⟩ "main")
    (MemStore.put MemStore.empty "main" "config" [3, 1, 0xC0, 0x80]) [3, 1, 0xC0, 0x80]
    ⟨rfl, by decide, by decide⟩ rfl (by decide)

end Olon
